import Mathlib

/-!
Shallow embedding of `src/main.py` (class `SalesAnalyzer`): the column
resolver, the cleaner, the derivation engine, the aggregators and the
analysis log, translated operation by operation from the source.  Numeric
cells are modelled exactly as rationals with explicit NaN/±inf markers for
the IEEE special values pandas produces on division by zero; fallible
pandas operations (KeyError on a missing column, TypeError on a
non-numeric operand, ValueError from `validate_columns`) are modelled with
`Except`.  Display-only strings (the `to_string` dumps stored in the log
details and the currency formatting of the final report) are abstracted to
simple renderings, since no claim depends on their exact text; the flexible
string-to-date parsing of `pd.to_datetime` is likewise abstracted (a
non-date cell coerces to NaT), since no claim exercises the accepted date
formats.
-/

/-- Cell values of a table.  `num` is an exact rational, `nan` is float
NaN (also pandas' missing marker in numeric columns), `pinf`/`ninf` the
infinities, `str` text, `date` a parsed calendar date, `null` a missing
value in a non-numeric column. -/
inductive Value where
  | num (q : ℚ)
  | nan
  | pinf
  | ninf
  | str (s : String)
  | date (y : ℤ) (m : ℕ) (d : ℕ)
  | null
deriving DecidableEq

/-- Model of `pd.isnull`: NaN and None are the missing markers. -/
def Value.isNull : Value → Bool
  | .nan => true
  | .null => true
  | _ => false

/-- Does a cell belong to a numeric (`float64`/`int64`) column? -/
def Value.isNumeric : Value → Bool
  | .num _ => true
  | .nan => true
  | .pinf => true
  | .ninf => true
  | _ => false

/-- NaN or an infinity: the "undefined" results of a zero division. -/
def Value.isNonFinite : Value → Bool
  | .nan => true
  | .pinf => true
  | .ninf => true
  | _ => false

/-- The comparison `v > 0` used by the cleaner's row filter (NaN compares
false, as in pandas). -/
def Value.gt0 : Value → Bool
  | .num q => decide (0 < q)
  | .pinf => true
  | _ => false

/-- Lower-case an ASCII letter code. -/
def lowerCode (n : ℕ) : ℕ :=
  if 65 ≤ n ∧ n ≤ 90 then n + 32 else n

/-- Character codes of a string, lower-cased (`str.lower()`). -/
def lcCodes (s : String) : List ℕ :=
  (s.toList.map Char.toNat).map lowerCode

/-- Does `hay` start with `needle`? -/
def headMatch : List ℕ → List ℕ → Bool
  | [], _ => true
  | _ :: _, [] => false
  | a :: as, b :: bs => a == b && headMatch as bs

/-- Is `needle` a contiguous sublist of `hay`? -/
def hasSub (needle : List ℕ) : List ℕ → Bool
  | [] => needle.isEmpty
  | b :: bs => headMatch needle (b :: bs) || hasSub needle bs

/-- Python's `kw in name.lower()` with both sides lower-cased, the
substring test behind every column lookup in the source. -/
def lcContains (name kw : String) : Bool :=
  hasSub (lcCodes kw) (lcCodes name)

/-- Does a column name contain any of the role's keywords? -/
def matchesAny (kws : List String) (name : String) : Bool :=
  kws.any (fun k => lcContains name k)

/-- The column resolver: `next((col for col in self.df.columns if ...),
None)` — the first column in table order whose lower-cased name contains
any keyword of the role (src/main.py:105-108, 152-154, 197-198, 274-275,
324-325, 401). -/
def resolveCol (kws : List String) (header : List String) : Option String :=
  header.find? (fun c => matchesAny kws c)

/-- A resolver that follows the spec's words instead ("first-registered-
keyword-then-first-column-order wins"): keywords are tried in priority
order, and each keyword picks the first column containing it.  Declared
only to compare with `resolveCol`, which is the code's behaviour. -/
def resolveColSpecOrder (kws : List String) (header : List String) : Option String :=
  kws.foldr (fun k acc => (header.find? (fun c => lcContains c k)).orElse (fun _ => acc)) none

/-- Keyword lists, as registered at each call site of the source. -/
def salesKeywords : List String := ["sales", "revenue"]

def costKeywords : List String := ["cost"]

def profitKeywords : List String := ["profit"]

def quantityKeywords : List String := ["quantity", "qty"]

def dateKeywords : List String := ["date"]

def productKeywords : List String := ["product", "item"]

def customerKeywords : List String := ["customer", "client"]

def categoryKeywords : List String := ["category", "type"]

def regionKeywords : List String := ["region", "state", "city"]

/-- The keywords of the cleaner's positivity filter (src/main.py:86). -/
def cleanKws : List String := ["quantity", "price", "sales"]

/-- The patterns `add_derived_columns` validates (src/main.py:99). -/
def reqCols : List String := ["sales", "cost", "quantity", "date"]

/-- A row: the cells of one record, in column order. -/
abbrev Row := List Value

/-- The in-memory table: ordered column names plus rows of cells. -/
structure Table where
  header : List String
  rows : List Row
deriving DecidableEq

/-- Well-formed: every row has one cell per column. -/
def Table.Wf (t : Table) : Prop :=
  ∀ r ∈ t.rows, r.length = t.header.length

instance (t : Table) : Decidable t.Wf := by
  unfold Table.Wf; infer_instance

/-- Cell of a row at a column index (missing positions read as null). -/
def getCell (r : Row) (j : ℕ) : Value :=
  r.getD j Value.null

/-- The values of column `j`, top to bottom. -/
def colAt (t : Table) (j : ℕ) : List Value :=
  t.rows.map (fun r => getCell r j)

/-- Index of the (first) column with exactly this name. -/
def colIdx? (t : Table) (c : String) : Option ℕ :=
  t.header.findIdx? (fun n => n == c)

/-- Model of `df[c]`: the values of the column named `c` ([] when absent; the
call sites below only read columns they have resolved). -/
def getColD (t : Table) (c : String) : List Value :=
  match colIdx? t c with
  | some j => colAt t j
  | none => []

/-- Model of `df[c] = vs`: overwrite the column when the name exists, else append
it as a new last column. -/
def setCol (t : Table) (c : String) (vs : List Value) : Table :=
  match colIdx? t c with
  | some j => { t with rows := List.zipWith (fun r v => r.set j v) t.rows vs }
  | none =>
    { header := t.header ++ [c],
      rows := List.zipWith (fun r v => r ++ [v]) t.rows vs }

/-- The python errors the modelled pandas calls can raise. -/
inductive PyErr where
  | valueError (msg : List String)
  | keyError (col : String)
  | typeError (msg : String)
deriving DecidableEq

/-- The analysis log: the two parallel lists of `self.log_data`
(src/main.py:26-29). -/
structure LogData where
  step : List String
  details : List String
deriving DecidableEq

/-- Model of `self.log_data['Step'].append(s)`. -/
def addStep (L : LogData) (s : String) : LogData :=
  { L with step := L.step ++ [s] }

/-- Model of `self.log_data['Details'].append(d)`. -/
def addDetail (L : LogData) (d : String) : LogData :=
  { L with details := L.details ++ [d] }

/-- The analyzer's state: the current dataframe, the row count captured
at load time, and the log. -/
structure Analyzer where
  df : Table
  originalRows : ℕ
  log : LogData
deriving DecidableEq

/-- Model of `__init__` after a successful read: capture the row count and log the
load (src/main.py:18-33).  File existence and the outputs directory are
I/O collaborators outside the core. -/
def loadState (t : Table) : Analyzer :=
  { df := t,
    originalRows := t.rows.length,
    log := addDetail (addStep ⟨[], []⟩ "Data Loading")
      ("Data loaded successfully: " ++ toString t.rows.length ++ " rows") }

/-- Model of `validate_columns` (src/main.py:35-46): collect the required patterns
matched by no column and raise a ValueError carrying them. -/
def validateColumns (t : Table) (req : List String) : Except PyErr Unit :=
  let missing := req.filter (fun p => !(t.header.any (fun c => lcContains c p)))
  if missing.isEmpty then .ok () else .error (.valueError missing)

/-- Model of `display_basic_info` (src/main.py:48-57); the dtype/head/describe
dumps are display-only and abstracted to the shape. -/
def basicInfoText (t : Table) : String :=
  "Dataset shape: (" ++ toString t.rows.length ++ ", " ++ toString t.header.length ++ ")"

def displayBasicInfo (s : Analyzer) : Analyzer :=
  { s with log := addDetail (addStep s.log "Basic Data Information") (basicInfoText s.df) }

/-- Model of `drop_duplicates` keep='first': keep the first occurrence of every
row (src/main.py:69). -/
def dedupGo (seen : List Row) : List Row → List Row
  | [] => []
  | r :: rs => if seen.contains r then dedupGo seen rs else r :: dedupGo (r :: seen) rs

def dedupRows (rs : List Row) : List Row :=
  dedupGo [] rs

/-- Stable insertion into a sorted list: `a` goes before the first
element `b` with `le a b`. -/
def insB (le : α → α → Bool) (a : α) : List α → List α
  | [] => [a]
  | b :: bs => if le a b then a :: b :: bs else b :: insB le a bs

/-- Stable insertion sort by a boolean comparison. -/
def isortBy (le : α → α → Bool) : List α → List α
  | [] => []
  | a :: as => insB le a (isortBy le as)

/-- An order on cells used for group-key sorting and the mode tie-break:
-inf < numbers < +inf, then NaN, dates, strings, nulls. -/
def vRank : Value → ℕ
  | .ninf => 0
  | .num _ => 1
  | .pinf => 2
  | .nan => 3
  | .date _ _ _ => 4
  | .str _ => 5
  | .null => 6

def valueLe (a b : Value) : Bool :=
  match a, b with
  | .num x, .num y => decide (x ≤ y)
  | .str x, .str y => decide (x ≤ y)
  | .date y1 m1 d1, .date y2 m2 d2 =>
    decide (y1 < y2) || (y1 == y2 && (decide (m1 < m2) || (m1 == m2 && decide (d1 ≤ d2))))
  | x, y => decide (vRank x ≤ vRank y)

/-- Lexicographic order on key tuples. -/
def listValLe : List Value → List Value → Bool
  | [], _ => true
  | _ :: _, [] => false
  | a :: as, b :: bs => if a == b then listValLe as bs else valueLe a b

/-- The finite rationals of a column (NaN/±inf/non-numerics skipped). -/
def numsOf (vs : List Value) : List ℚ :=
  vs.filterMap (fun v => match v with | .num q => some q | _ => none)

/-- Model of `Series.median` over the finite values: middle element, or the mean
of the two middle elements. -/
def ratMedian (qs : List ℚ) : ℚ :=
  let ss := isortBy (fun a b => decide (a ≤ b)) qs
  let n := ss.length
  if n = 0 then 0
  else if n % 2 = 1 then ss.getD (n / 2) 0
  else (ss.getD (n / 2 - 1) 0 + ss.getD (n / 2) 0) / 2

/-- First-kept deduplication of arbitrary values. -/
def dedupValsGo [DecidableEq α] (seen : List α) : List α → List α
  | [] => []
  | r :: rs => if seen.contains r then dedupValsGo seen rs else r :: dedupValsGo (r :: seen) rs

def dedupVals [DecidableEq α] (l : List α) : List α :=
  dedupValsGo [] l

/-- Model of `Series.mode()[0]`: among the non-null values of maximal frequency,
the least in sorted order; none when the column has no non-null value. -/
def modeOf (vs : List Value) : Option Value :=
  let nn := vs.filter (fun v => !v.isNull)
  let cand := isortBy valueLe (dedupVals nn)
  cand.foldl
    (fun acc c =>
      match acc with
      | none => some c
      | some b => if nn.count c > nn.count b then some c else acc)
    none

/-- Is the whole column of numeric dtype? -/
def isNumericDtype (vs : List Value) : Bool :=
  vs.all (fun v => v.isNumeric)

/-- The per-column fill value of the missing-value pass
(src/main.py:74-81): median for numeric columns, mode otherwise; none
when the column has no nulls or no value to fill with. -/
def fillValueFor (vs : List Value) : Option Value :=
  if vs.countP (fun v => v.isNull) = 0 then none
  else if isNumericDtype vs then
    let qs := numsOf vs
    if qs.isEmpty then none else some (.num (ratMedian qs))
  else modeOf vs

/-- Map a function over a list with the position index. -/
def mapWithIdxGo (f : ℕ → α → β) : ℕ → List α → List β
  | _, [] => []
  | i, a :: as => f i a :: mapWithIdxGo f (i + 1) as

def mapWithIdx (f : ℕ → α → β) (l : List α) : List β :=
  mapWithIdxGo f 0 l

/-- The fillna pass: each null cell takes its column's fill value. -/
def fillMissing (t : Table) : Table :=
  let fv := (List.range t.header.length).map (fun j => fillValueFor (colAt t j))
  { t with
    rows := t.rows.map (fun r =>
      mapWithIdx (fun j v => if v.isNull then ((fv.getD j none).getD v) else v) r) }

/-- Columns subject to the positivity filter: numeric dtype and a name
containing quantity/price/sales (src/main.py:84-87). -/
def filterIdxs (t : Table) : List ℕ :=
  (List.range t.header.length).filter
    (fun j => isNumericDtype (colAt t j) && matchesAny cleanKws (t.header.getD j ""))

/-- Model of `self.df = self.df[self.df[col] > 0]`, applied per matching column. -/
def applyFilters (t : Table) : Table :=
  { t with
    rows := (filterIdxs t).foldl (fun rs j => rs.filter (fun r => (getCell r j).gt0)) t.rows }

/-- The cleaner's table transformation: duplicates out, nulls filled,
non-positive quantity/price/sales rows dropped (src/main.py:59-87). -/
def cleanTable (t : Table) : Table :=
  applyFilters (fillMissing { t with rows := dedupRows t.rows })

/-- The removed-row count `clean_data` reports:
`self.original_rows - rows_after_cleaning` (src/main.py:91). -/
def reportedRemoved (s : Analyzer) : ℤ :=
  (s.originalRows : ℤ) - ((cleanTable s.df).rows.length : ℤ)

/-- Diagnostic text of the missing-value count pass (content
display-only). -/
def missingText (t : Table) : String :=
  "Missing values per column: " ++
    toString (t.rows.foldl (fun n r => n + r.countP (fun v => v.isNull)) 0)

/-- Model of `clean_data` (src/main.py:59-91). -/
def cleanData (s : Analyzer) : Analyzer :=
  let L1 := addDetail (addStep s.log "Missing Values") (missingText s.df)
  let dupCount := s.df.rows.length - (dedupRows s.df.rows).length
  let L2 := addDetail (addStep L1 "Duplicates Removed")
    ("Duplicates removed: " ++ toString dupCount)
  let t3 := cleanTable s.df
  let L3 := addDetail (addStep L2 "Data Cleaning Summary")
    ("Rows after cleaning: " ++ toString t3.rows.length ++
      "\nRows removed: " ++ toString (reportedRemoved s))
  { s with df := t3, log := L3 }

/-- Elementwise subtraction of two numeric cells, IEEE-style on the
specials; none on a non-numeric operand (pandas raises TypeError). -/
def vsub? : Value → Value → Option Value
  | .num a, .num b => some (.num (a - b))
  | .num _, .nan => some .nan
  | .nan, .num _ => some .nan
  | .nan, .nan => some .nan
  | .nan, .pinf => some .nan
  | .nan, .ninf => some .nan
  | .pinf, .nan => some .nan
  | .ninf, .nan => some .nan
  | .pinf, .num _ => some .pinf
  | .ninf, .num _ => some .ninf
  | .num _, .pinf => some .ninf
  | .num _, .ninf => some .pinf
  | .pinf, .pinf => some .nan
  | .ninf, .ninf => some .nan
  | .pinf, .ninf => some .pinf
  | .ninf, .pinf => some .ninf
  | _, _ => none

/-- Elementwise division, IEEE-style: a finite value over zero gives the
signed infinity, 0/0 gives NaN; none on a non-numeric operand. -/
def vdiv? : Value → Value → Option Value
  | .num a, .num b =>
    if b = 0 then
      if 0 < a then some .pinf else if a < 0 then some .ninf else some .nan
    else some (.num (a / b))
  | .num _, .pinf => some (.num 0)
  | .num _, .ninf => some (.num 0)
  | .nan, .num _ => some .nan
  | .nan, .nan => some .nan
  | .nan, .pinf => some .nan
  | .nan, .ninf => some .nan
  | .num _, .nan => some .nan
  | .pinf, .nan => some .nan
  | .ninf, .nan => some .nan
  | .pinf, .num b => if 0 ≤ b then some .pinf else some .ninf
  | .ninf, .num b => if 0 ≤ b then some .ninf else some .pinf
  | .pinf, .pinf => some .nan
  | .pinf, .ninf => some .nan
  | .ninf, .pinf => some .nan
  | .ninf, .ninf => some .nan
  | _, _ => none

/-- Elementwise addition (sums of groups); string concatenation and other
object-dtype sums are abstracted to NaN, no claim touching them. -/
def vadd : Value → Value → Value
  | .num a, .num b => .num (a + b)
  | .num _, .pinf => .pinf
  | .pinf, .num _ => .pinf
  | .num _, .ninf => .ninf
  | .ninf, .num _ => .ninf
  | .pinf, .pinf => .pinf
  | .ninf, .ninf => .ninf
  | _, _ => .nan

/-- Multiplication by the positive scalar 100 (`* 100`). -/
def vscale100 : Value → Value
  | .num q => .num (100 * q)
  | .pinf => .pinf
  | .ninf => .ninf
  | _ => .nan

/-- Round half to even, numpy's rounding mode. -/
def halfEven (q : ℚ) : ℤ :=
  let n := ⌊q⌋
  let f := q - (n : ℚ)
  if f < 1 / 2 then n
  else if 1 / 2 < f then n + 1
  else if n % 2 = 0 then n else n + 1

/-- Model of `Series.round(2)`: finite values to two decimals, specials kept. -/
def round2 : Value → Value
  | .num q => .num ((halfEven (q * 100) : ℚ) / 100)
  | v => v

/-- Collect a list of options, failing on the first none. -/
def seqOpt : List (Option α) → Option (List α)
  | [] => some []
  | o :: os => o.bind (fun a => (seqOpt os).map (fun as => a :: as))

/-- Model of `series - series`; TypeError when an operand is non-numeric. -/
def seriesSub (as bs : List Value) : Except PyErr (List Value) :=
  match seqOpt (List.zipWith vsub? as bs) with
  | some l => .ok l
  | none => .error (.typeError "unsupported operand type for -")

/-- Model of `series / series`; TypeError when an operand is non-numeric. -/
def seriesDiv (as bs : List Value) : Except PyErr (List Value) :=
  match seqOpt (List.zipWith vdiv? as bs) with
  | some l => .ok l
  | none => .error (.typeError "unsupported operand type for /")

/-- Model of `pd.to_datetime(..., errors='coerce')`: dates pass through, anything
else coerces to NaT (string parsing abstracted; no claim depends on the
accepted formats). -/
def toDatetime : Value → Value
  | .date y m d => .date y m d
  | _ => .nan

def monthName : ℕ → String
  | 1 => "January" | 2 => "February" | 3 => "March" | 4 => "April"
  | 5 => "May" | 6 => "June" | 7 => "July" | 8 => "August"
  | 9 => "September" | 10 => "October" | 11 => "November" | 12 => "December"
  | _ => ""

def dtYear : Value → Value
  | .date y _ _ => .num (y : ℚ)
  | _ => .nan

def dtMonth : Value → Value
  | .date _ m _ => .num (m : ℚ)
  | _ => .nan

def dtMonthName : Value → Value
  | .date _ m _ => .str (monthName m)
  | _ => .nan

def dtQuarter : Value → Value
  | .date _ m _ => .num (((m - 1) / 3 + 1 : ℕ) : ℚ)
  | _ => .nan

def errText : PyErr → String
  | .valueError m => String.intercalate ", " m
  | .keyError c => c
  | .typeError m => m

/-- The table part of the date section of `add_derived_columns`
(src/main.py:126-139): the date column is replaced by its coerced parse
first; if every value failed to parse the ValueError is raised and caught
locally, otherwise the four calendar columns are added. -/
def dateDeriveTable (t : Table) : Table :=
  match resolveCol dateKeywords t.header with
  | none => t
  | some dc =>
    let parsed := (getColD t dc).map toDatetime
    let tP := setCol t dc parsed
    if parsed.all (fun v => v.isNull) then tP
    else
      setCol (setCol (setCol (setCol tP "Year" (parsed.map dtYear))
        "Month" (parsed.map dtMonth)) "Month_Name" (parsed.map dtMonthName))
        "Quarter" (parsed.map dtQuarter)

/-- The `log_info` line the date section appends. -/
def dateDeriveInfo (t : Table) : List String :=
  match resolveCol dateKeywords t.header with
  | none => []
  | some dc =>
    if ((getColD t dc).map toDatetime).all (fun v => v.isNull) then
      ["Could not parse date column: All dates are invalid or could not be parsed"]
    else ["Date-based columns created (Year, Month, Month_Name, Quarter)"]

/-- The date section of `add_derived_columns` (src/main.py:126-139). -/
def dateDerive (t : Table) (li : List String) : Table × List String :=
  (dateDeriveTable t, li ++ dateDeriveInfo t)

/-- The table computation of `add_derived_columns` (src/main.py:104-139)
together with the accumulated `log_info` lines: Profit is derived only
when sales and cost resolve and no profit-matching column exists; margin
and unit price follow, then the date fields. -/
def deriveTables (t0 : Table) : Except PyErr (Table × List String) :=
  let salesC := resolveCol salesKeywords t0.header
  let costC := resolveCol costKeywords t0.header
  let profC := resolveCol profitKeywords t0.header
  let step1 : Except PyErr (Table × Option String × List String) :=
    match salesC, costC, profC with
    | some sc, some cc, none =>
      (match seriesSub (getColD t0 sc) (getColD t0 cc) with
       | .ok pv => .ok (setCol t0 "Profit" pv, some "Profit", ["Profit column created"])
       | .error e => .error e)
    | _, _, _ => .ok (t0, profC, [])
  match step1 with
  | .error e => .error e
  | .ok (t1, profC1, li1) =>
    let step2 : Except PyErr (Table × List String) :=
      match salesC, profC1 with
      | some sc, some pc =>
        (match seriesDiv (getColD t1 pc) (getColD t1 sc) with
         | .ok mv =>
           .ok (setCol t1 "Profit_Margin_Percentage" (mv.map (fun v => round2 (vscale100 v))),
             li1 ++ ["Profit Margin Percentage column created"])
         | .error e => .error e)
      | _, _ => .ok (t1, li1)
    match step2 with
    | .error e => .error e
    | .ok (t2, li2) =>
      let qtyC := resolveCol quantityKeywords t0.header
      let step3 : Except PyErr (Table × List String) :=
        match salesC, qtyC with
        | some sc, some qc =>
          (match seriesDiv (getColD t2 sc) (getColD t2 qc) with
           | .ok av =>
             .ok (setCol t2 "Average_Unit_Price" (av.map round2),
               li2 ++ ["Average Unit Price column created"])
           | .error e => .error e)
        | _, _ => .ok (t2, li2)
      match step3 with
      | .error e => .error e
      | .ok (t3, li3) => .ok (dateDerive t3 li3)

/-- Model of `add_derived_columns` (src/main.py:93-143).  The ValueError from
`validate_columns` — the only kind it raises — is caught and logged
(src/main.py:98-102); the tables are computed by `deriveTables` and a
single (Step, Details) pair is appended at the end.  An uncaught error
discards the state, so assembling the log after the table computation is
observationally the same as the source's interleaving. -/
def addDerivedColumns (s : Analyzer) : Except PyErr Analyzer :=
  let L0 :=
    match validateColumns s.df reqCols with
    | .ok _ => s.log
    | .error e =>
      addDetail (addStep s.log "Column Validation Error")
        ("Missing required columns: " ++ errText e)
  match deriveTables s.df with
  | .error e => .error e
  | .ok (t4, li4) =>
    let li5 := li4 ++ ["New columns added. Total columns now: " ++ toString t4.header.length]
    .ok { s with
            df := t4,
            log := addDetail (addStep L0 "Derived Columns") (String.intercalate "\n" li5) }

/-- The aggregation functions appearing in the source's `agg` dicts. -/
inductive AggF where
  | asum
  | acount
  | amean
  | amax
  | amin
deriving DecidableEq

/-- One grouped aggregate over the values of a column inside a group:
sums, counts and extrema skip null entries, the mean is sum over
non-null count (NaN on an empty group, pandas' behaviour). -/
def applyAgg : AggF → List Value → Value
  | .asum, vs => (vs.filter (fun v => !v.isNull)).foldl vadd (.num 0)
  | .acount, vs => .num (vs.countP (fun v => !v.isNull) : ℚ)
  | .amean, vs =>
    (vdiv? ((vs.filter (fun v => !v.isNull)).foldl vadd (.num 0))
      (.num (vs.countP (fun v => !v.isNull) : ℚ))).getD .nan
  | .amax, vs =>
    match vs.filter (fun v => !v.isNull) with
    | [] => .nan
    | w :: ws => ws.foldl (fun a b => if valueLe a b then b else a) w
  | .amin, vs =>
    match vs.filter (fun v => !v.isNull) with
    | [] => .nan
    | w :: ws => ws.foldl (fun a b => if valueLe b a then b else a) w

/-- The key tuple of a row for a list of key column indices. -/
def keyOfRow (idxs : List ℕ) (r : Row) : List Value :=
  idxs.map (fun j => getCell r j)

/-- Model of `groupby(keys, sort=True, dropna=True)`: rows with a null key
component are dropped and the distinct key tuples come out sorted
ascending; each group keeps its rows in table order. -/
def groupRows (idxs : List ℕ) (rows : List Row) : List (List Value × List Row) :=
  let keys := isortBy listValLe
    (dedupVals ((rows.map (keyOfRow idxs)).filter (fun k => !(k.any (fun v => v.isNull)))))
  keys.map (fun k => (k, rows.filter (fun r => keyOfRow idxs r == k)))

/-- Python dict insertion into an agg spec: overwrite an existing column
key, else append. -/
def dictUpsert (spec : List (String × List AggF)) (k : String) (fs : List AggF) :
    List (String × List AggF) :=
  if spec.any (fun p => p.1 == k) then
    spec.map (fun p => if p.1 == k then (k, fs) else p)
  else spec ++ [(k, fs)]

/-- Model of `df.groupby(keyCols).agg(spec).reset_index()` — KeyError on a missing
grouping column (checked first, as `groupby` runs before `agg`) or on an
agg-dict key that is not a column.  The flattened output has one column
per key followed by one per (column, function) pair; the call sites
rename them immediately. -/
def aggTable (t : Table) (keyCols : List String) (spec : List (String × List AggF)) :
    Except PyErr Table :=
  match keyCols.find? (fun c => !(t.header.contains c)) with
  | some c => .error (.keyError c)
  | none =>
    match (spec.map (fun p => p.1)).find? (fun c => !(t.header.contains c)) with
    | some c => .error (.keyError c)
    | none =>
      let kidx := keyCols.map (fun c => (colIdx? t c).getD 0)
      let groups := groupRows kidx t.rows
      let outHeader := keyCols ++ (spec.map (fun p => p.2.map (fun _ => p.1))).flatten
      let outRows := groups.map (fun g =>
        g.1 ++ (spec.map (fun p =>
          let j := (colIdx? t p.1).getD 0
          p.2.map (fun f => applyAgg f (g.2.map (fun r => getCell r j))))).flatten
        )
      .ok { header := outHeader, rows := outRows }

/-- Model of `df.sort_values(by=c, ascending=False)`.  The source passes no
`kind`, so pandas uses its default quicksort, whose tie order is
unspecified; the model is a stable descending sort, and no theorem below
depends on the order of tied rows (see the notes on the Top-N claim). -/
def sortValsDescBy (t : Table) (c : String) : Table :=
  match colIdx? t c with
  | none => t
  | some j =>
    { t with rows := isortBy (fun r1 r2 => valueLe (getCell r2 j) (getCell r1 j)) t.rows }

/-- Model of `df.sort_values(by=cs)` ascending, lexicographic; same modelling note
as `sortValsDescBy`. -/
def sortValsAscBy (t : Table) (cs : List String) : Table :=
  let idxs := cs.map (fun c => (colIdx? t c).getD 0)
  { t with rows := isortBy (fun r1 r2 => listValLe (keyOfRow idxs r1) (keyOfRow idxs r2)) t.rows }

/-- Model of `df.head(n)`. -/
def headTake (n : ℕ) (t : Table) : Table :=
  { t with rows := t.rows.take n }

/-- Model of `df.columns = names`: a ValueError when the lengths mismatch. -/
def setColumns (t : Table) (names : List String) : Except PyErr Table :=
  if names.length == t.header.length then .ok { t with header := names }
  else .error (.valueError ["Length mismatch"])

/-- The rounding loop `for col in select_dtypes(number): df[col] =
df[col].round(2)` with an exclusion list. -/
def roundNumericCols (excl : List String) (t : Table) : Table :=
  let idxs := (List.range t.header.length).filter
    (fun j => !(excl.contains (t.header.getD j "")) && isNumericDtype (colAt t j))
  { t with rows := t.rows.map (fun r => mapWithIdx (fun j v => if idxs.contains j then round2 v else v) r) }

/-- Round a single named column (`regional_monthly['Total_Sales'] =
....round(2)`). -/
def roundOneCol (c : String) (t : Table) : Table :=
  match colIdx? t c with
  | none => t
  | some j => { t with rows := t.rows.map (fun r => mapWithIdx (fun i v => if i == j then round2 v else v) r) }

/-- Display rendering of a result table for the log details
(`to_string`, abstracted to the row count). -/
def tableText (t : Table) : String :=
  "rows: " ++ toString t.rows.length

/-- The table computation of `analyze_top_products`
(src/main.py:151-174): resolve product, sales and quantity; without
product or sales there is no result; otherwise aggregate by product —
summing quantity when resolved, else the agg dict gets the key 'Count'
mapped to 'count' — sort by the sales column descending, truncate,
rename, round. -/
def topProductsTable (topN : ℕ) (t : Table) : Except PyErr (Option Table) :=
  let productC := resolveCol productKeywords t.header
  let salesC := resolveCol salesKeywords t.header
  let qtyC := resolveCol quantityKeywords t.header
  match productC, salesC with
  | some pc, some sc =>
    let spec0 := [(sc, [AggF.asum])]
    let spec :=
      match qtyC with
      | some qc => dictUpsert spec0 qc [AggF.asum]
      | none => dictUpsert spec0 "Count" [AggF.acount]
    (match aggTable t [pc] spec with
     | .error e => .error e
     | .ok t0 =>
       let t1 := headTake topN (sortValsDescBy t0 sc)
       (match setColumns t1 ["Product", "Total_Sales",
           if qtyC.isSome then "Total_Quantity" else "Count"] with
        | .error e => .error e
        | .ok t2 => .ok (some (roundNumericCols [] t2))))
  | _, _ => .ok none

/-- Model of `analyze_top_products` (src/main.py:145-188): log a diagnostic pair
when a required role is unresolved, else the analysis and save pairs. -/
def analyzeTopProducts (topN : ℕ) (s : Analyzer) : Except PyErr (Analyzer × Option Table) :=
  match topProductsTable topN s.df with
  | .error e => .error e
  | .ok none =>
    let L := addDetail (addStep s.log "Top Products Analysis")
      "Required columns (product or sales) not found"
    .ok ({ s with log := L }, none)
  | .ok (some t3) =>
    let L1 := addDetail (addStep s.log "Top Products Analysis")
      ("Top " ++ toString topN ++ " Best Selling Products:\n" ++ tableText t3)
    let L2 := addDetail (addStep L1 "Top Products Save")
      "Results saved to outputs/top_products.csv"
    .ok ({ s with log := L2 }, some t3)

/-- The table computation of `analyze_loyal_customer`
(src/main.py:196-217). -/
def loyalCustomerTable (topN : ℕ) (t : Table) : Except PyErr (Option Table) :=
  let custC := resolveCol customerKeywords t.header
  let salesC := resolveCol salesKeywords t.header
  match custC, salesC with
  | some cc, some sc =>
    (match aggTable t [cc] [(sc, [AggF.asum, AggF.acount, AggF.amean])] with
     | .error e => .error e
     | .ok t0 =>
       (match setColumns t0 ["Customer", "Total_Spending", "Purchase_Count", "Average_Purchase"] with
        | .error e => .error e
        | .ok t1 =>
          let t2 := headTake topN (sortValsDescBy t1 "Total_Spending")
          .ok (some (roundNumericCols [] t2))))
  | _, _ => .ok none

/-- Model of `analyze_loyal_customer` (src/main.py:190-231). -/
def analyzeLoyalCustomer (topN : ℕ) (s : Analyzer) : Except PyErr (Analyzer × Option Table) :=
  match loyalCustomerTable topN s.df with
  | .error e => .error e
  | .ok none =>
    let L := addDetail (addStep s.log "Loyal Customers Analysis")
      "Required columns (customer or sales) not found"
    .ok ({ s with log := L }, none)
  | .ok (some t3) =>
    let L1 := addDetail (addStep s.log "Loyal Customers Analysis")
      ("Top " ++ toString topN ++ " Loyal Customers:\n" ++ tableText t3)
    let L2 := addDetail (addStep L1 "Loyal Customers Save")
      "Results saved to outputs/loyal_customers.csv"
    .ok ({ s with log := L2 }, some t3)

/-- The table computation of `analyze_profitability_trend`
(src/main.py:236-255): the presence check covers exactly the columns
`Month_Name` and `Profit`; the agg dict then references
`Profit_Margin_Percentage` and the grouping references `Year` and
`Month` unchecked. -/
def profitabilityTrendTable (t : Table) : Except PyErr (Option Table) :=
  if !(t.header.contains "Month_Name") || !(t.header.contains "Profit") then
    .ok none
  else
    match aggTable t ["Year", "Month", "Month_Name"]
        [("Profit", [AggF.asum, AggF.amean]), ("Profit_Margin_Percentage", [AggF.amean])] with
    | .error e => .error e
    | .ok t0 =>
      (match setColumns t0 ["Year", "Month", "Month_Name", "Total_Profit",
          "Average_Profit", "Avg_Profit_Margin"] with
       | .error e => .error e
       | .ok t1 =>
         .ok (some (roundNumericCols ["Year", "Month"] (sortValsAscBy t1 ["Year", "Month"]))))

/-- Model of `analyze_profitability_trend` (src/main.py:233-269). -/
def analyzeProfitabilityTrend (s : Analyzer) : Except PyErr (Analyzer × Option Table) :=
  match profitabilityTrendTable s.df with
  | .error e => .error e
  | .ok none =>
    let L := addDetail (addStep s.log "Profitability Trend Analysis")
      "Required columns (Month_Name or Profit) not found. Run add_derived_columns() first"
    .ok ({ s with log := L }, none)
  | .ok (some t2) =>
    let L1 := addDetail (addStep s.log "Profitability Trend Analysis") (tableText t2)
    let L2 := addDetail (addStep L1 "Profitability Trend Save")
      "Results saved to outputs/profitability_trend.csv"
    .ok ({ s with log := L2 }, some t2)

/-- The table computation of `analyze_by_category`
(src/main.py:274-305); the profit column is the exact name 'Profit'
here, not a keyword lookup. -/
def categoryTable (t : Table) : Except PyErr (Option Table) :=
  let catC := resolveCol categoryKeywords t.header
  let salesC := resolveCol salesKeywords t.header
  let profitPresent := t.header.contains "Profit"
  match catC, salesC with
  | some cc, some sc =>
    let spec0 := [(sc, [AggF.asum, AggF.amean, AggF.acount])]
    let spec := if profitPresent then dictUpsert spec0 "Profit" [AggF.asum] else spec0
    (match aggTable t [cc] spec with
     | .error e => .error e
     | .ok t0 =>
       (match setColumns t0
           (if profitPresent then
             ["Category", "Total_Sales", "Average_Sales", "Transaction_Count", "Total_Profit"]
           else ["Category", "Total_Sales", "Average_Sales", "Transaction_Count"]) with
        | .error e => .error e
        | .ok t1 =>
          let t2 := sortValsDescBy t1 "Total_Sales"
          let total := applyAgg .asum (getColD t2 "Total_Sales")
          (match seriesDiv (getColD t2 "Total_Sales")
              (List.replicate (getColD t2 "Total_Sales").length total) with
           | .error e => .error e
           | .ok pv =>
             let t3 := setCol t2 "Sales_Percentage" (pv.map (fun v => round2 (vscale100 v)))
             .ok (some (roundNumericCols ["Transaction_Count"] t3)))))
  | _, _ => .ok none

/-- Model of `analyze_by_category` (src/main.py:271-319). -/
def analyzeByCategory (s : Analyzer) : Except PyErr (Analyzer × Option Table) :=
  match categoryTable s.df with
  | .error e => .error e
  | .ok none =>
    let L := addDetail (addStep s.log "Category Analysis")
      "Required columns (category or sales) not found"
    .ok ({ s with log := L }, none)
  | .ok (some t4) =>
    let L1 := addDetail (addStep s.log "Category Analysis") (tableText t4)
    let L2 := addDetail (addStep L1 "Category Analysis Save")
      "Results saved to outputs/category_analysis.csv"
    .ok ({ s with log := L2 }, some t4)

/-- The table computations of `analyze_by_region_and_month`
(src/main.py:323-378): the presence check covers only the region and
sales roles; the first grouping then references `Month_Name` and `Month`
unchecked. -/
def regionMonthTables (t : Table) : Except PyErr (Option (Table × Table × Table)) :=
  let regC := resolveCol regionKeywords t.header
  let salesC := resolveCol salesKeywords t.header
  match regC, salesC with
  | some rc, some sc =>
    (match aggTable t [rc, "Month_Name", "Month"] [(sc, [AggF.asum])] with
     | .error e => .error e
     | .ok m0 =>
       (match setColumns m0 ["Region", "Month_Name", "Month", "Total_Sales"] with
        | .error e => .error e
        | .ok m1 =>
          let m2 := roundOneCol "Total_Sales" (sortValsAscBy m1 ["Region", "Month"])
          (match aggTable t [rc] [(sc, [AggF.asum, AggF.amax, AggF.amin, AggF.amean])] with
           | .error e => .error e
           | .ok r0 =>
             (match setColumns r0 ["Region", "Total_Sales", "Highest_Sale",
                 "Lowest_Sale", "Average_Sale"] with
              | .error e => .error e
              | .ok r1 =>
                let r2 := roundNumericCols [] (sortValsDescBy r1 "Total_Sales")
                (match aggTable t ["Month", "Month_Name"]
                    [(sc, [AggF.asum, AggF.amax, AggF.amin, AggF.amean])] with
                 | .error e => .error e
                 | .ok n0 =>
                   (match setColumns n0 ["Month", "Month_Name", "Total_Sales",
                       "Highest_Sale", "Lowest_Sale", "Average_Sale"] with
                    | .error e => .error e
                    | .ok n1 =>
                      let n2 := roundNumericCols ["Month"] (sortValsAscBy n1 ["Month"])
                      .ok (some (m2, r2, n2))))))))
  | _, _ => .ok none

/-- Model of `analyze_by_region_and_month` (src/main.py:321-393).  The successful
save path prints to the console and adds no log entry. -/
def analyzeByRegionAndMonth (s : Analyzer) :
    Except PyErr (Analyzer × Option (Table × Table × Table)) :=
  match regionMonthTables s.df with
  | .error e => .error e
  | .ok none =>
    let L := addDetail (addStep s.log "Region and Month Analysis")
      "Required columns (region or sales) not found"
    .ok ({ s with log := L }, none)
  | .ok (some mrn) =>
    let L1 := addDetail (addStep s.log "Regional Monthly Sales") (tableText mrn.1)
    let L2 := addDetail (addStep L1 "Region Summary") (tableText mrn.2.1)
    let L3 := addDetail (addStep L2 "Month Summary") (tableText mrn.2.2)
    .ok ({ s with log := L3 }, some mrn)

/-- Two-decimal rendering of a rational for the display strings. -/
def pad2 (k : ℕ) : String :=
  if k < 10 then "0" ++ toString k else toString k

def q2str (q : ℚ) : String :=
  let c := halfEven (q * 100)
  let n := c.natAbs
  (if c < 0 then "-" else "") ++ toString (n / 100) ++ "." ++ pad2 (n % 100)

/-- Model of `f"${x:,.2f}"`, thousands separators omitted (display-only). -/
def fmtMoney : Value → String
  | .num q => "$" ++ q2str q
  | .pinf => "$inf"
  | .ninf => "$-inf"
  | _ => "$nan"

def fmtPct : Value → String
  | .num q => q2str q ++ "%"
  | .pinf => "inf%"
  | .ninf => "-inf%"
  | _ => "nan%"

/-- Model of `general_final_report` (src/main.py:395-456): the fixed (Metric,
Value) sequence, gated on the sales resolution, the exact column
'Profit' and the exact column 'Profit_Margin_Percentage'. -/
def generalFinalReport (s : Analyzer) : Except PyErr (Analyzer × Table) :=
  let salesC := resolveCol salesKeywords s.df.header
  let profitPresent := s.df.header.contains "Profit"
  let base : List Row := [[.str "Total Transactions", .num (s.df.rows.length : ℚ)]]
  let salesPart : List Row :=
    match salesC with
    | none => []
    | some sc =>
      [[.str "Total Sales Revenue", .str (fmtMoney (applyAgg .asum (getColD s.df sc)))],
       [.str "Average Transaction Value", .str (fmtMoney (applyAgg .amean (getColD s.df sc)))],
       [.str "Highest Single Transaction", .str (fmtMoney (applyAgg .amax (getColD s.df sc)))],
       [.str "Lowest Single Transaction", .str (fmtMoney (applyAgg .amin (getColD s.df sc)))]]
  let profitPart : List Row :=
    if profitPresent then
      [[.str "Total Profit", .str (fmtMoney (applyAgg .asum (getColD s.df "Profit")))],
       [.str "Average Profit per Transaction",
        .str (fmtMoney (applyAgg .amean (getColD s.df "Profit")))]] ++
      (if s.df.header.contains "Profit_Margin_Percentage" then
        [[.str "Average Profit Margin",
          .str (fmtPct (applyAgg .amean (getColD s.df "Profit_Margin_Percentage")))]]
      else [])
    else []
  let rep : Table := { header := ["Metric", "Value"], rows := base ++ salesPart ++ profitPart }
  let L1 := addDetail (addStep s.log "Final Report Save")
    "Final cleaned and enriched dataset saved; final report saved"
  .ok ({ s with log := L1 }, rep)

/-- The pipeline operations of `main()` (src/main.py:458-492). -/
inductive POp where
  | basicInfo
  | clean
  | derive
  | top (n : ℕ)
  | loyal (n : ℕ)
  | trend
  | category
  | regionMonth
  | finalReport

/-- One pipeline operation as a state transition (result tables
projected away). -/
def runOp : POp → Analyzer → Except PyErr Analyzer
  | .basicInfo, s => .ok (displayBasicInfo s)
  | .clean, s => .ok (cleanData s)
  | .derive, s => addDerivedColumns s
  | .top n, s => (analyzeTopProducts n s).map (fun p => p.1)
  | .loyal n, s => (analyzeLoyalCustomer n s).map (fun p => p.1)
  | .trend, s => (analyzeProfitabilityTrend s).map (fun p => p.1)
  | .category, s => (analyzeByCategory s).map (fun p => p.1)
  | .regionMonth, s => (analyzeByRegionAndMonth s).map (fun p => p.1)
  | .finalReport, s => (generalFinalReport s).map (fun p => p.1)

def runSteps (ops : List POp) (s : Analyzer) : Except PyErr Analyzer :=
  ops.foldlM (fun st op => runOp op st) s

/-- Model of `main()` end to end on a loaded table. -/
def runPipeline (t : Table) : Except PyErr Analyzer :=
  runSteps [POp.basicInfo, POp.clean, POp.derive, POp.top 10, POp.loyal 10,
    POp.trend, POp.category, POp.regionMonth, POp.finalReport] (loadState t)

/-- The structural invariant of the log: the two parallel lists have
equal length. -/
def lockstep (L : LogData) : Prop :=
  L.step.length = L.details.length

/-- Model of `L'` extends `L`: both lists only grew at the end (entries are never
removed or reordered). -/
def LogExt (L L' : LogData) : Prop :=
  (∃ a, L'.step = L.step ++ a) ∧ (∃ b, L'.details = L.details ++ b)

/-- Witness table for the Profit derivation claim. -/
def exT1 : Table :=
  { header := ["Sales", "Cost"],
    rows := [[.num 5, .num 2], [.num 7, .num 3]] }

/-- Second witness table for the Profit derivation claim: a
profit-matching column already present. -/
def exT1b : Table :=
  { header := ["Sales", "Cost", "Gross_Profit"],
    rows := [[.num 5, .num 2, .num 3]] }

/-- The enriched state obtained from `exT1b`. -/
def c1state : Analyzer :=
  match addDerivedColumns (loadState exT1b) with
  | .ok s => s
  | .error _ => loadState exT1b

/-- Witness table for the cleaning row-count claim: one duplicate row and
one non-positive sales row. -/
def exT3 : Table :=
  { header := ["Sales"],
    rows := [[.num 5], [.num 5], [.num 0]] }

/-- Witness table for the cleaner idempotence claim: already clean. -/
def exT4 : Table :=
  { header := ["Sales", "Name"],
    rows := [[.num 5, .str "a"], [.num 3, .str "b"]] }

/-- Failing input of the count-fallback claim: product and sales resolve,
quantity does not. -/
def exT6 : Table :=
  { header := ["Product", "Sales"],
    rows := [[.str "A", .num 10], [.str "B", .num 5]] }

/-- Failing input of the derived-field-check claim, trend side: after
derivation the table has Month_Name and Profit but no
Profit_Margin_Percentage (sales never resolves, so the margin is not
derived). -/
def exT7a : Table :=
  { header := ["Date", "Profit", "Cost"],
    rows := [[.date 2023 1 5, .num 10, .num 2], [.date 2023 2 6, .num 4, .num 1]] }

/-- The enriched state obtained from `exT7a`. -/
def c7state : Analyzer :=
  match addDerivedColumns (loadState exT7a) with
  | .ok s => s
  | .error _ => loadState exT7a

/-- Failing input of the derived-field-check claim, region side: region
and sales resolve but no date column ever existed, so Month_Name and
Month are absent. -/
def exT7b : Table :=
  { header := ["Region", "Sales"],
    rows := [[.str "North", .num 10]] }

/-- Counterexample input of the fatal-validation claim: the required
cost and date patterns match no column, yet the pipeline still runs to
completion. -/
def exT8 : Table :=
  { header := ["Product", "Sales", "Quantity"],
    rows := [[.str "A", .num 100, .num 2]] }

/-- The state after basic info, cleaning and derivation on `exT8`. -/
def c8state : Analyzer :=
  match runSteps [POp.basicInfo, POp.clean, POp.derive] (loadState exT8) with
  | .ok s => s
  | .error _ => loadState exT8

/-- The Top Products report produced after the failed validation on
`exT8` (the run reaches aggregation). -/
def c8top : Option Table :=
  match analyzeTopProducts 10 c8state with
  | .ok (_, r) => r
  | .error _ => none

/-- Witness table for the zero-sales division claim. -/
def exT9 : Table :=
  { header := ["Sales", "Cost", "Quantity"],
    rows := [[.num 0, .num 3, .num 2], [.num 10, .num 4, .num 5]] }

/-- Second witness table for the zero-sales division claim: the profit
column pre-exists, so the margin divides it by the zero Sales directly. -/
def exT9b : Table :=
  { header := ["Sales", "Profit", "Quantity"],
    rows := [[.num 0, .num 7, .num 2], [.num 10, .num 3, .num 5]] }

/-- Witness table for the log-lockstep claim. -/
def exT10 : Table :=
  { header := ["Sales"],
    rows := [[.num 1]] }

theorem logGrow_refl (L : LogData) : LogExt L L ∧ (lockstep L → lockstep L) :=
  ⟨⟨⟨[], by simp⟩, ⟨[], by simp⟩⟩, fun h => h⟩

theorem logGrow_pair {L M : LogData} (h : LogExt L M ∧ (lockstep L → lockstep M))
    (s d : String) :
    LogExt L (addDetail (addStep M s) d) ∧
      (lockstep L → lockstep (addDetail (addStep M s) d)) := by
  obtain ⟨⟨⟨a, ha⟩, ⟨b, hb⟩⟩, hl⟩ := h
  refine ⟨⟨⟨a ++ [s], ?_⟩, ⟨b ++ [d], ?_⟩⟩, ?_⟩
  · simp [addStep, addDetail, ha]
  · simp [addStep, addDetail, hb]
  · intro hL
    have h2 := hl hL
    simp [lockstep, addStep, addDetail] at *
    omega

theorem logGrow_basicInfo (s : Analyzer) :
    LogExt s.log (displayBasicInfo s).log ∧
      (lockstep s.log → lockstep (displayBasicInfo s).log) :=
  logGrow_pair (logGrow_refl _) _ _

theorem logGrow_clean (s : Analyzer) :
    LogExt s.log (cleanData s).log ∧ (lockstep s.log → lockstep (cleanData s).log) :=
  logGrow_pair (logGrow_pair (logGrow_pair (logGrow_refl _) _ _) _ _) _ _

theorem logGrow_derive {s : Analyzer} {r : Analyzer} (h : addDerivedColumns s = .ok r) :
    LogExt s.log r.log ∧ (lockstep s.log → lockstep r.log) := by
  simp only [addDerivedColumns] at h
  repeat split at h
  all_goals
    first
    | exact Except.noConfusion h
    | (injection h with h2
       subst h2
       first
       | exact logGrow_pair (logGrow_refl _) _ _
       | exact logGrow_pair (logGrow_pair (logGrow_refl _) _ _) _ _
       | (split
          · exact logGrow_pair (logGrow_refl _) _ _
          · exact logGrow_pair (logGrow_pair (logGrow_refl _) _ _) _ _))

theorem logGrow_top {n : ℕ} {s : Analyzer} {r : Analyzer × Option Table}
    (h : analyzeTopProducts n s = .ok r) :
    LogExt s.log r.1.log ∧ (lockstep s.log → lockstep r.1.log) := by
  simp only [analyzeTopProducts] at h
  split at h
  · exact Except.noConfusion h
  · injection h with h2
    subst h2
    exact logGrow_pair (logGrow_refl _) _ _
  · injection h with h2
    subst h2
    exact logGrow_pair (logGrow_pair (logGrow_refl _) _ _) _ _

theorem logGrow_loyal {n : ℕ} {s : Analyzer} {r : Analyzer × Option Table}
    (h : analyzeLoyalCustomer n s = .ok r) :
    LogExt s.log r.1.log ∧ (lockstep s.log → lockstep r.1.log) := by
  simp only [analyzeLoyalCustomer] at h
  split at h
  · exact Except.noConfusion h
  · injection h with h2
    subst h2
    exact logGrow_pair (logGrow_refl _) _ _
  · injection h with h2
    subst h2
    exact logGrow_pair (logGrow_pair (logGrow_refl _) _ _) _ _

theorem logGrow_trend {s : Analyzer} {r : Analyzer × Option Table}
    (h : analyzeProfitabilityTrend s = .ok r) :
    LogExt s.log r.1.log ∧ (lockstep s.log → lockstep r.1.log) := by
  simp only [analyzeProfitabilityTrend] at h
  split at h
  · exact Except.noConfusion h
  · injection h with h2
    subst h2
    exact logGrow_pair (logGrow_refl _) _ _
  · injection h with h2
    subst h2
    exact logGrow_pair (logGrow_pair (logGrow_refl _) _ _) _ _

theorem logGrow_category {s : Analyzer} {r : Analyzer × Option Table}
    (h : analyzeByCategory s = .ok r) :
    LogExt s.log r.1.log ∧ (lockstep s.log → lockstep r.1.log) := by
  simp only [analyzeByCategory] at h
  split at h
  · exact Except.noConfusion h
  · injection h with h2
    subst h2
    exact logGrow_pair (logGrow_refl _) _ _
  · injection h with h2
    subst h2
    exact logGrow_pair (logGrow_pair (logGrow_refl _) _ _) _ _

theorem logGrow_regionMonth {s : Analyzer} {r : Analyzer × Option (Table × Table × Table)}
    (h : analyzeByRegionAndMonth s = .ok r) :
    LogExt s.log r.1.log ∧ (lockstep s.log → lockstep r.1.log) := by
  simp only [analyzeByRegionAndMonth] at h
  split at h
  · exact Except.noConfusion h
  · injection h with h2
    subst h2
    exact logGrow_pair (logGrow_refl _) _ _
  · injection h with h2
    subst h2
    exact logGrow_pair (logGrow_pair (logGrow_pair (logGrow_refl _) _ _) _ _) _ _

theorem logGrow_finalReport {s : Analyzer} {r : Analyzer × Table}
    (h : generalFinalReport s = .ok r) :
    LogExt s.log r.1.log ∧ (lockstep s.log → lockstep r.1.log) := by
  simp only [generalFinalReport] at h
  injection h with h2
  subst h2
  exact logGrow_pair (logGrow_refl _) _ _

/-- C10 — After every pipeline operation (loading, cleaning, derivation,
each aggregator, the final report), the Analysis Log's Step list and
Details list have equal length: every operation appends Step and Details
entries in lockstep and never removes or reorders existing entries (the
old lists are prefixes of the new). -/
theorem c10_log_lockstep :
    (∀ t : Table, lockstep (loadState t).log) ∧
    ∀ (op : POp) (s s' : Analyzer), runOp op s = .ok s' → lockstep s.log →
      lockstep s'.log ∧ LogExt s.log s'.log := by
  constructor
  · intro t
    simp [loadState, addStep, addDetail, lockstep]
  · intro op s s' h hl
    cases op with
    | basicInfo =>
      injection h with h2
      subst h2
      obtain ⟨he, hs⟩ := logGrow_basicInfo s
      exact ⟨hs hl, he⟩
    | clean =>
      injection h with h2
      subst h2
      obtain ⟨he, hs⟩ := logGrow_clean s
      exact ⟨hs hl, he⟩
    | derive =>
      obtain ⟨he, hs⟩ := logGrow_derive h
      exact ⟨hs hl, he⟩
    | top n =>
      cases hres : analyzeTopProducts n s with
      | error e => rw [runOp, hres] at h; exact Except.noConfusion h
      | ok p =>
        rw [runOp, hres] at h
        injection h with h2
        subst h2
        obtain ⟨he, hs⟩ := logGrow_top hres
        exact ⟨hs hl, he⟩
    | loyal n =>
      cases hres : analyzeLoyalCustomer n s with
      | error e => rw [runOp, hres] at h; exact Except.noConfusion h
      | ok p =>
        rw [runOp, hres] at h
        injection h with h2
        subst h2
        obtain ⟨he, hs⟩ := logGrow_loyal hres
        exact ⟨hs hl, he⟩
    | trend =>
      cases hres : analyzeProfitabilityTrend s with
      | error e => rw [runOp, hres] at h; exact Except.noConfusion h
      | ok p =>
        rw [runOp, hres] at h
        injection h with h2
        subst h2
        obtain ⟨he, hs⟩ := logGrow_trend hres
        exact ⟨hs hl, he⟩
    | category =>
      cases hres : analyzeByCategory s with
      | error e => rw [runOp, hres] at h; exact Except.noConfusion h
      | ok p =>
        rw [runOp, hres] at h
        injection h with h2
        subst h2
        obtain ⟨he, hs⟩ := logGrow_category hres
        exact ⟨hs hl, he⟩
    | regionMonth =>
      cases hres : analyzeByRegionAndMonth s with
      | error e => rw [runOp, hres] at h; exact Except.noConfusion h
      | ok p =>
        rw [runOp, hres] at h
        injection h with h2
        subst h2
        obtain ⟨he, hs⟩ := logGrow_regionMonth hres
        exact ⟨hs hl, he⟩
    | finalReport =>
      cases hres : generalFinalReport s with
      | error e => rw [runOp, hres] at h; exact Except.noConfusion h
      | ok p =>
        rw [runOp, hres] at h
        injection h with h2
        subst h2
        obtain ⟨he, hs⟩ := logGrow_finalReport hres
        exact ⟨hs hl, he⟩

/-- Witness for C10: the cleaning operation on a concrete state. -/
theorem c10_log_lockstep_witness :
    lockstep (loadState exT10).log ∧
    (lockstep (cleanData (loadState exT10)).log ∧
      LogExt (loadState exT10).log (cleanData (loadState exT10)).log) :=
  ⟨c10_log_lockstep.1 exT10,
    c10_log_lockstep.2 POp.clean (loadState exT10) (cleanData (loadState exT10)) rfl
      (c10_log_lockstep.1 exT10)⟩

theorem dedupGo_length_le (seen : List Row) (rs : List Row) :
    (dedupGo seen rs).length ≤ rs.length := by
  induction rs generalizing seen with
  | nil => simp [dedupGo]
  | cons r rs ih =>
    simp only [dedupGo]
    split
    · exact (ih seen).trans (Nat.le_succ _)
    · simpa using ih (r :: seen)

theorem dedupRows_length_le (rs : List Row) : (dedupRows rs).length ≤ rs.length :=
  dedupGo_length_le [] rs

theorem fillMissing_rows_length (t : Table) : (fillMissing t).rows.length = t.rows.length := by
  simp [fillMissing]

theorem foldFilter_length_le (idxs : List ℕ) (rows : List Row) :
    (idxs.foldl (fun rs j => rs.filter (fun r => (getCell r j).gt0)) rows).length ≤ rows.length := by
  induction idxs generalizing rows with
  | nil => exact le_refl _
  | cons j js ih => exact (ih _).trans (List.length_filter_le _ _)

theorem cleanTable_length_le (t : Table) : (cleanTable t).rows.length ≤ t.rows.length := by
  have h1 : (cleanTable t).rows.length ≤
      (fillMissing { t with rows := dedupRows t.rows }).rows.length :=
    foldFilter_length_le _ _
  rw [fillMissing_rows_length] at h1
  exact h1.trans (dedupRows_length_le t.rows)

/-- C3 — Cleaning never increases the row count, and the reported
removed-row count (`original_rows - rows_after_cleaning`) equals the
original row count minus the final row count and is non-negative. -/
theorem c3_cleaning_rowcount :
    ∀ s : Analyzer, s.originalRows = s.df.rows.length →
      (cleanData s).df.rows.length ≤ s.df.rows.length ∧
      reportedRemoved s =
        (s.df.rows.length : ℤ) - ((cleanData s).df.rows.length : ℤ) ∧
      0 ≤ reportedRemoved s := by
  intro s h
  have hdf : (cleanData s).df = cleanTable s.df := rfl
  have hle : (cleanTable s.df).rows.length ≤ s.df.rows.length := cleanTable_length_le s.df
  refine ⟨by rw [hdf]; exact hle, by rw [hdf, reportedRemoved, h], ?_⟩
  rw [reportedRemoved, h]
  omega

/-- Witness for C3 on a concrete table with one duplicate and one
non-positive sales row. -/
theorem c3_cleaning_rowcount_witness :
    (cleanData (loadState exT3)).df.rows.length ≤ (loadState exT3).df.rows.length ∧
    reportedRemoved (loadState exT3) =
      ((loadState exT3).df.rows.length : ℤ) -
        ((cleanData (loadState exT3)).df.rows.length : ℤ) ∧
    0 ≤ reportedRemoved (loadState exT3) :=
  c3_cleaning_rowcount (loadState exT3) rfl

theorem dedupGo_of_nodup (seen : List Row) (rs : List Row) (hd : rs.Nodup)
    (hdisj : ∀ r ∈ rs, r ∉ seen) : dedupGo seen rs = rs := by
  induction rs generalizing seen with
  | nil => rfl
  | cons r rs ih =>
    have hnotin : seen.contains r = false := by
      simpa using hdisj r (List.mem_cons_self r rs)
    simp only [dedupGo, hnotin, Bool.false_eq_true, if_false]
    rw [ih (r :: seen) (List.Nodup.of_cons hd)]
    intro x hx
    simp only [List.mem_cons, not_or]
    exact ⟨fun hxr => (List.nodup_cons.mp hd).1 (hxr ▸ hx), hdisj x (List.mem_cons_of_mem r hx)⟩

theorem mapWithIdxGo_id {f : ℕ → Value → Value} (r : Row) (i : ℕ)
    (h : ∀ j v, v ∈ r → f j v = v) : mapWithIdxGo f i r = r := by
  induction r generalizing i with
  | nil => rfl
  | cons v vs ih =>
    simp only [mapWithIdxGo]
    rw [h i v (List.mem_cons_self v vs), ih (i + 1) (fun j w hw => h j w (List.mem_cons_of_mem v hw))]

theorem mapSelf {l : List Row} {g : Row → Row} (h : ∀ r ∈ l, g r = r) : l.map g = l := by
  induction l with
  | nil => rfl
  | cons r rs ih =>
    simp only [List.map_cons, h r (List.mem_cons_self r rs),
      ih (fun x hx => h x (List.mem_cons_of_mem r hx))]

theorem fillMissing_of_noNull (t : Table)
    (h : ∀ r ∈ t.rows, ∀ v ∈ r, v.isNull = false) : fillMissing t = t := by
  simp only [fillMissing]
  have : t.rows.map (fun r =>
      mapWithIdx (fun j v => if v.isNull then
        (((List.range t.header.length).map (fun j => fillValueFor (colAt t j))).getD j none).getD v
      else v) r) = t.rows := by
    apply mapSelf
    intro r hr
    apply mapWithIdxGo_id
    intro j v hv
    rw [h r hr v hv]
    simp
  rw [this]

theorem foldFilter_id (idxs : List ℕ) (rows : List Row)
    (h : ∀ j ∈ idxs, ∀ r ∈ rows, (getCell r j).gt0 = true) :
    idxs.foldl (fun rs j => rs.filter (fun r => (getCell r j).gt0)) rows = rows := by
  induction idxs with
  | nil => rfl
  | cons j js ih =>
    have hf : rows.filter (fun r => (getCell r j).gt0) = rows :=
      List.filter_eq_self.mpr (fun r hr => h j (List.mem_cons_self j js) r hr)
    simp only [List.foldl_cons, hf]
    exact ih (fun i hi r hr => h i (List.mem_cons_of_mem j hi) r hr)

theorem applyFilters_of_pos (t : Table)
    (h : ∀ j ∈ filterIdxs t, ∀ v ∈ colAt t j, v.gt0 = true) : applyFilters t = t := by
  simp only [applyFilters]
  rw [foldFilter_id]
  intro j hj r hr
  exact h j hj (getCell r j) (List.mem_map_of_mem (fun r => getCell r j) hr)

/-- C4 — Re-running the Cleaner on an already-cleaned table (no
duplicate rows, no nulls, no non-positive values in the numeric columns
whose names match the quantity/sales/price keywords) leaves the table
unchanged and reports zero rows removed. -/
theorem c4_cleaner_idempotent :
    ∀ s : Analyzer,
      s.originalRows = s.df.rows.length →
      s.df.rows.Nodup →
      (∀ r ∈ s.df.rows, ∀ v ∈ r, v.isNull = false) →
      (∀ j, j < s.df.header.length → matchesAny cleanKws (s.df.header.getD j "") = true →
        isNumericDtype (colAt s.df j) = true → ∀ v ∈ colAt s.df j, v.gt0 = true) →
      (cleanData s).df = s.df ∧ reportedRemoved s = 0 := by
  intro s h0 hnd hnn hpos
  have hded : dedupRows s.df.rows = s.df.rows := dedupGo_of_nodup [] _ hnd (by simp)
  have ht1 : ({ s.df with rows := dedupRows s.df.rows } : Table) = s.df := by
    rw [hded]
  have hclean : cleanTable s.df = s.df := by
    rw [cleanTable, ht1, fillMissing_of_noNull s.df hnn]
    apply applyFilters_of_pos
    intro j hj v hv
    simp only [filterIdxs, List.mem_filter, List.mem_range, Bool.and_eq_true] at hj
    exact hpos j hj.1 hj.2.2 hj.2.1 v hv
  have hdf : (cleanData s).df = cleanTable s.df := rfl
  refine ⟨by rw [hdf, hclean], ?_⟩
  rw [reportedRemoved, hclean, h0]
  omega

/-- Witness for C4 on a concrete already-clean table. -/
theorem c4_cleaner_idempotent_witness :
    (cleanData (loadState exT4)).df = (loadState exT4).df ∧
      reportedRemoved (loadState exT4) = 0 :=
  c4_cleaner_idempotent (loadState exT4) rfl (by decide) (by decide) (by decide)

/-- C2 counterexample — the claim says keyword registration order beats
column order, so on a table with columns [Revenue_Total, Sales_Amt] the
Sales role would resolve to Sales_Amt (it matches the first-registered
keyword "sales", while Revenue_Total matches only the later "revenue");
the code returns the first column in table order, Revenue_Total.  The
spec-ordered resolver differs from the code's resolver on this input. -/
theorem c2_resolution_counterexample :
    resolveCol salesKeywords ["Revenue_Total", "Sales_Amt"] = some "Revenue_Total" ∧
    resolveColSpecOrder salesKeywords ["Revenue_Total", "Sales_Amt"] = some "Sales_Amt" ∧
    resolveCol salesKeywords ["Revenue_Total", "Sales_Amt"] ≠
      resolveColSpecOrder salesKeywords ["Revenue_Total", "Sales_Amt"] ∧
    salesKeywords = ["sales", "revenue"] ∧
    lcContains "Sales_Amt" "sales" = true ∧
    lcContains "Revenue_Total" "sales" = false ∧
    lcContains "Revenue_Total" "revenue" = true := by
  exact ⟨rfl, rfl, by decide, rfl, rfl, rfl, rfl⟩

/-- C2 amended — role resolution returns the first column in table order
whose lower-cased name contains any of the role's keywords; the keyword
list is only a disjunction and its order never overrides column order. -/
theorem c2_resolution_amended :
    ∀ (kws header : List String) (c : String),
      resolveCol kws header = some c ↔
        matchesAny kws c = true ∧
        ∃ i : ℕ, header[i]? = some c ∧
          ∀ j : ℕ, j < i → ∀ d, header[j]? = some d → matchesAny kws d = false := by
  intro kws header c
  rw [resolveCol, List.find?_eq_some_iff_getElem]
  constructor
  · rintro ⟨hp, i, hlt, heq, hprev⟩
    refine ⟨hp, i, by rw [List.getElem?_eq_getElem hlt, heq], ?_⟩
    intro j hj d hd
    obtain ⟨hjl, hje⟩ := List.getElem?_eq_some_iff.mp hd
    have := hprev j hj
    rw [hje] at this
    simpa using this
  · rintro ⟨hp, i, hi, hprev⟩
    obtain ⟨hlt, heq⟩ := List.getElem?_eq_some_iff.mp hi
    refine ⟨hp, i, hlt, heq, ?_⟩
    intro j hj
    have hjl : j < header.length := Nat.lt_trans hj hlt
    have := hprev j hj (header[j]) (List.getElem?_eq_getElem hjl)
    simpa using this

/-- Witness for the amended C2 at a concrete header. -/
theorem c2_resolution_amended_witness :
    matchesAny salesKeywords "Total_Sales" = true ∧
    ∃ i : ℕ, (["Qty", "Total_Sales"] : List String)[i]? = some "Total_Sales" ∧
      ∀ j : ℕ, j < i → ∀ d, (["Qty", "Total_Sales"] : List String)[j]? = some d →
        matchesAny salesKeywords d = false :=
  (c2_resolution_amended salesKeywords ["Qty", "Total_Sales"] "Total_Sales").mp (by decide)

theorem mem_zipWith {α β γ : Type} {f : α → β → γ} {as : List α} {bs : List β} {c : γ}
    (h : c ∈ List.zipWith f as bs) : ∃ a ∈ as, ∃ b ∈ bs, c = f a b := by
  induction as generalizing bs with
  | nil => simp at h
  | cons a as ih =>
    cases bs with
    | nil => simp at h
    | cons b bs =>
      simp only [List.zipWith_cons_cons, List.mem_cons] at h
      rcases h with h | h
      · exact ⟨a, by simp, b, by simp, h⟩
      · obtain ⟨x, hx, y, hy, he⟩ := ih h
        exact ⟨x, by simp [hx], y, by simp [hy], he⟩

theorem colAt_length (t : Table) (j : ℕ) : (colAt t j).length = t.rows.length := by
  simp [colAt]

theorem colIdx?_spec {t : Table} {c : String} {j : ℕ} (h : colIdx? t c = some j) :
    j < t.header.length ∧ t.header[j]? = some c := by
  rw [colIdx?] at h
  obtain ⟨hlt, hp, _⟩ := List.findIdx?_eq_some_iff_getElem.mp h
  refine ⟨hlt, ?_⟩
  rw [List.getElem?_eq_getElem hlt]
  have : t.header[j] = c := by simpa using hp
  rw [this]

theorem colIdx?_eq_none {t : Table} {c : String} (h : colIdx? t c = none) : c ∉ t.header := by
  intro hc
  have := List.findIdx?_eq_none_iff.mp h c hc
  simp at this

theorem colIdx?_isSome_of_mem {t : Table} {c : String} (h : c ∈ t.header) :
    ∃ j, colIdx? t c = some j := by
  cases hidx : colIdx? t c with
  | none => exact absurd h (colIdx?_eq_none hidx)
  | some j => exact ⟨j, rfl⟩

theorem getColD_length_of_mem {t : Table} {c : String} (h : c ∈ t.header) :
    (getColD t c).length = t.rows.length := by
  obtain ⟨j, hj⟩ := colIdx?_isSome_of_mem h
  rw [getColD, hj]
  exact colAt_length t j

theorem setCol_header (t : Table) (c : String) (vs : List Value) :
    (setCol t c vs).header = match colIdx? t c with
      | some _ => t.header
      | none => t.header ++ [c] := by
  rw [setCol]
  cases colIdx? t c <;> rfl

theorem setCol_contains_self (t : Table) (c : String) (vs : List Value) :
    (setCol t c vs).header.contains c = true := by
  rw [setCol_header]
  cases hidx : colIdx? t c with
  | some j =>
    obtain ⟨_, hj⟩ := colIdx?_spec hidx
    have hmem : c ∈ t.header := by
      obtain ⟨_, he⟩ := List.getElem?_eq_some_iff.mp hj
      exact he ▸ List.getElem_mem _
    simpa using hmem
  | none => simp

theorem setCol_contains_other (t : Table) (m c : String) (vs : List Value) (hne : c ≠ m) :
    (setCol t m vs).header.contains c = t.header.contains c := by
  rw [setCol_header]
  cases colIdx? t m with
  | some j => rfl
  | none =>
    simp only [List.elem_eq_mem, List.mem_append, List.mem_singleton, hne, or_false,
      decide_eq_decide]

theorem setCol_rows_length (t : Table) (c : String) (vs : List Value)
    (hlen : vs.length = t.rows.length) : (setCol t c vs).rows.length = t.rows.length := by
  rw [setCol]
  cases colIdx? t c <;> simp [hlen]

theorem setCol_Wf (t : Table) (c : String) (vs : List Value) (hw : t.Wf)
    (_hlen : vs.length = t.rows.length) : (setCol t c vs).Wf := by
  rw [setCol]
  cases hidx : colIdx? t c with
  | some j =>
    intro r hr
    obtain ⟨x, hx, y, _, he⟩ := mem_zipWith hr
    rw [he]
    simpa using hw x hx
  | none =>
    intro r hr
    obtain ⟨x, hx, y, _, he⟩ := mem_zipWith hr
    rw [he]
    simp [hw x hx]

theorem colAt_zipWith_set {rows : List Row} {vs : List Value} {j : ℕ}
    (hj : ∀ r ∈ rows, j < r.length) (hlen : vs.length = rows.length) :
    (List.zipWith (fun r v => r.set j v) rows vs).map (fun r => getCell r j) = vs := by
  induction rows generalizing vs with
  | nil =>
    cases vs with
    | nil => rfl
    | cons v vs => simp at hlen
  | cons r rs ih =>
    cases vs with
    | nil => simp at hlen
    | cons v vs =>
      simp only [List.zipWith_cons_cons, List.map_cons]
      have h1 : getCell (r.set j v) j = v := by
        have hjr : j < r.length := hj r (List.mem_cons_self r rs)
        simp [getCell, List.getD, List.getElem?_set_self hjr]
      rw [h1, ih (fun x hx => hj x (List.mem_cons_of_mem r hx)) (by simpa using hlen)]

theorem colAt_zipWith_append {rows : List Row} {vs : List Value} {n : ℕ}
    (hj : ∀ r ∈ rows, r.length = n) (hlen : vs.length = rows.length) :
    (List.zipWith (fun r v => r ++ [v]) rows vs).map (fun r => getCell r n) = vs := by
  induction rows generalizing vs with
  | nil =>
    cases vs with
    | nil => rfl
    | cons v vs => simp at hlen
  | cons r rs ih =>
    cases vs with
    | nil => simp at hlen
    | cons v vs =>
      simp only [List.zipWith_cons_cons, List.map_cons]
      have h1 : getCell (r ++ [v]) n = v := by
        have hr : r.length = n := hj r (List.mem_cons_self r rs)
        subst hr
        simp [getCell, List.getD]
      rw [h1, ih (fun x hx => hj x (List.mem_cons_of_mem r hx)) (by simpa using hlen)]

theorem getColD_setCol_self (t : Table) (c : String) (vs : List Value) (hw : t.Wf)
    (hlen : vs.length = t.rows.length) : getColD (setCol t c vs) c = vs := by
  cases hidx : colIdx? t c with
  | some j =>
    have hdr : (setCol t c vs).header = t.header := by rw [setCol_header, hidx]
    have hidx2 : colIdx? (setCol t c vs) c = some j := by
      rw [colIdx?, hdr]
      exact hidx
    rw [getColD, hidx2]
    have hrows : (setCol t c vs).rows = List.zipWith (fun r v => r.set j v) t.rows vs := by
      rw [setCol, hidx]
    simp only [colAt]
    rw [hrows]
    apply colAt_zipWith_set
    · intro r hr
      rw [hw r hr]
      exact (colIdx?_spec hidx).1
    · exact hlen
  | none =>
    have hdr : (setCol t c vs).header = t.header ++ [c] := by rw [setCol_header, hidx]
    have hidx2 : colIdx? (setCol t c vs) c = some t.header.length := by
      rw [colIdx?, hdr, List.findIdx?_append]
      have h1 : t.header.findIdx? (fun n => n == c) = none := hidx
      have h2 : List.findIdx? (fun n => n == c) [c] = some 0 := by simp [List.findIdx?]
      rw [h1, h2]
      simp
    rw [getColD, hidx2]
    have hrows : (setCol t c vs).rows = List.zipWith (fun r v => r ++ [v]) t.rows vs := by
      rw [setCol, hidx]
    simp only [colAt]
    rw [hrows]
    exact colAt_zipWith_append hw hlen

theorem colAt_zipWith_set_ne {rows : List Row} {vs : List Value} {j i : ℕ}
    (hne : i ≠ j) (hlen : vs.length = rows.length) :
    (List.zipWith (fun r v => r.set j v) rows vs).map (fun r => getCell r i) =
      rows.map (fun r => getCell r i) := by
  induction rows generalizing vs with
  | nil => rfl
  | cons r rs ih =>
    cases vs with
    | nil => simp at hlen
    | cons v vs =>
      simp only [List.zipWith_cons_cons, List.map_cons]
      have h1 : getCell (r.set j v) i = getCell r i := by
        simp [getCell, List.getD, List.getElem?_set_ne (Ne.symm hne)]
      rw [h1, ih (by simpa using hlen)]

theorem colAt_zipWith_append_lt {rows : List Row} {vs : List Value} {i : ℕ}
    (hj : ∀ r ∈ rows, i < r.length) (hlen : vs.length = rows.length) :
    (List.zipWith (fun r v => r ++ [v]) rows vs).map (fun r => getCell r i) =
      rows.map (fun r => getCell r i) := by
  induction rows generalizing vs with
  | nil => rfl
  | cons r rs ih =>
    cases vs with
    | nil => simp at hlen
    | cons v vs =>
      simp only [List.zipWith_cons_cons, List.map_cons]
      have h1 : getCell (r ++ [v]) i = getCell r i := by
        have hi : i < r.length := hj r (List.mem_cons_self r rs)
        simp [getCell, List.getD, List.getElem?_append, hi]
      rw [h1, ih (fun x hx => hj x (List.mem_cons_of_mem r hx)) (by simpa using hlen)]

theorem getColD_setCol_other (t : Table) (m c : String) (vs : List Value) (hw : t.Wf)
    (hlen : vs.length = t.rows.length) (hne : c ≠ m) :
    getColD (setCol t m vs) c = getColD t c := by
  cases hidx : colIdx? t m with
  | some j =>
    have hdr : (setCol t m vs).header = t.header := by rw [setCol_header, hidx]
    have hrows : (setCol t m vs).rows = List.zipWith (fun r v => r.set j v) t.rows vs := by
      rw [setCol, hidx]
    have hidx2 : colIdx? (setCol t m vs) c = colIdx? t c := by rw [colIdx?, hdr]; rfl
    rw [getColD, getColD, hidx2]
    cases hc : colIdx? t c with
    | none => rfl
    | some i =>
      have hij : i ≠ j := by
        intro he
        subst he
        have h1 := (colIdx?_spec hidx).2
        have h2 := (colIdx?_spec hc).2
        rw [h1] at h2
        exact hne (Option.some.injEq _ _ ▸ h2.symm ▸ rfl)
      simp only [colAt]
      rw [hrows]
      exact colAt_zipWith_set_ne hij hlen
  | none =>
    have hdr : (setCol t m vs).header = t.header ++ [m] := by rw [setCol_header, hidx]
    have hrows : (setCol t m vs).rows = List.zipWith (fun r v => r ++ [v]) t.rows vs := by
      rw [setCol, hidx]
    have hsingle : List.findIdx? (fun n => n == c) [m] = none := by
      simp [List.findIdx?]
      exact fun h => absurd h.symm hne
    have hidx2 : colIdx? (setCol t m vs) c = colIdx? t c := by
      rw [colIdx?, hdr, List.findIdx?_append, hsingle]
      cases hc : t.header.findIdx? (fun n => n == c) <;> simp [colIdx?, hc]
    rw [getColD, getColD, hidx2]
    cases hc : colIdx? t c with
    | none => rfl
    | some i =>
      simp only [colAt]
      rw [hrows]
      apply colAt_zipWith_append_lt
      · intro r hr
        rw [hw r hr]
        exact (colIdx?_spec hc).1
      · exact hlen

theorem resolveCol_mem {kws header : List String} {c : String}
    (h : resolveCol kws header = some c) : c ∈ header ∧ matchesAny kws c = true :=
  ⟨List.mem_of_find?_eq_some h, List.find?_some h⟩

theorem resolveCol_none {kws header : List String} (h : resolveCol kws header = none) :
    ∀ c ∈ header, matchesAny kws c = false := by
  intro c hc
  have := List.find?_eq_none.mp h c hc
  simpa using this

theorem vsub?_numeric {a b : Value} (ha : a.isNumeric = true) (hb : b.isNumeric = true) :
    ∃ v, vsub? a b = some v ∧ v.isNumeric = true := by
  cases a <;> cases b <;> simp_all [Value.isNumeric, vsub?]

theorem vdiv?_numeric {a b : Value} (ha : a.isNumeric = true) (hb : b.isNumeric = true) :
    ∃ v, vdiv? a b = some v ∧ v.isNumeric = true := by
  cases a <;> cases b <;>
    simp_all [Value.isNumeric, vdiv?] <;>
    (try split) <;>
    (try split) <;>
    (try split) <;>
    simp_all [Value.isNumeric]

theorem vdiv?_zero {a : Value} (ha : a.isNumeric = true) :
    ∃ v, vdiv? a (.num 0) = some v ∧ v.isNonFinite = true := by
  cases a <;>
    simp_all [Value.isNumeric, vdiv?, Value.isNonFinite] <;>
    (try split) <;>
    (try split) <;>
    simp_all [Value.isNonFinite]

theorem round2_vscale100_nonFinite {v : Value} (h : v.isNonFinite = true) :
    (round2 (vscale100 v)).isNonFinite = true := by
  cases v <;> simp_all [round2, vscale100, Value.isNonFinite]

theorem isNumericDtype_cons {a : Value} {l : List Value} :
    isNumericDtype (a :: l) = true ↔ a.isNumeric = true ∧ isNumericDtype l = true := by
  simp [isNumericDtype]

theorem seqOpt_zip_ok {f : Value → Value → Option Value}
    (hf : ∀ a b, a.isNumeric = true → b.isNumeric = true →
      ∃ v, f a b = some v ∧ v.isNumeric = true) :
    ∀ (as bs : List Value), isNumericDtype as = true → isNumericDtype bs = true →
      ∃ l, seqOpt (List.zipWith f as bs) = some l ∧
        l.length = min as.length bs.length ∧
        isNumericDtype l = true ∧
        ∀ (i : ℕ) (a b : Value), as[i]? = some a → bs[i]? = some b → l[i]? = f a b := by
  intro as
  induction as with
  | nil =>
    intro bs _ _
    exact ⟨[], rfl, by simp, rfl, by simp⟩
  | cons a as ih =>
    intro bs hna hnb
    cases bs with
    | nil => exact ⟨[], rfl, by simp, rfl, by simp⟩
    | cons b bs =>
      obtain ⟨ha, has⟩ := isNumericDtype_cons.mp hna
      obtain ⟨hb, hbs⟩ := isNumericDtype_cons.mp hnb
      obtain ⟨v, hv, hvn⟩ := hf a b ha hb
      obtain ⟨l, hl, hlen, hln, hidx⟩ := ih bs has hbs
      refine ⟨v :: l, ?_, ?_, ?_, ?_⟩
      · rw [List.zipWith_cons_cons]
        simp [seqOpt, hv, hl]
      · simp only [List.length_cons, hlen]
        omega
      · exact isNumericDtype_cons.mpr ⟨hvn, hln⟩
      · intro i x y hx hy
        cases i with
        | zero =>
          simp only [List.getElem?_cons_zero, Option.some.injEq] at hx hy
          subst hx
          subst hy
          simp only [List.getElem?_cons_zero]
          exact hv.symm
        | succ i =>
          simp only [List.getElem?_cons_succ] at hx hy ⊢
          exact hidx i x y hx hy

theorem seriesSub_ok {as bs : List Value} (hna : isNumericDtype as = true)
    (hnb : isNumericDtype bs = true) :
    ∃ l, seriesSub as bs = .ok l ∧
      l.length = min as.length bs.length ∧
      isNumericDtype l = true ∧
      ∀ (i : ℕ) (a b : Value), as[i]? = some a → bs[i]? = some b → l[i]? = vsub? a b := by
  obtain ⟨l, hl, h2, h3, h4⟩ :=
    seqOpt_zip_ok (fun a b ha hb => vsub?_numeric ha hb) as bs hna hnb
  exact ⟨l, by rw [seriesSub, hl], h2, h3, h4⟩

theorem seriesDiv_ok {as bs : List Value} (hna : isNumericDtype as = true)
    (hnb : isNumericDtype bs = true) :
    ∃ l, seriesDiv as bs = .ok l ∧
      l.length = min as.length bs.length ∧
      isNumericDtype l = true ∧
      ∀ (i : ℕ) (a b : Value), as[i]? = some a → bs[i]? = some b → l[i]? = vdiv? a b := by
  obtain ⟨l, hl, h2, h3, h4⟩ :=
    seqOpt_zip_ok (fun a b ha hb => vdiv?_numeric ha hb) as bs hna hnb
  exact ⟨l, by rw [seriesDiv, hl], h2, h3, h4⟩

theorem isNumeric_of_mem {l : List Value} {v : Value} (hn : isNumericDtype l = true)
    (hv : v ∈ l) : v.isNumeric = true := by
  rw [isNumericDtype, List.all_eq_true] at hn
  exact hn v hv

theorem isNumeric_of_getElem {l : List Value} {i : ℕ} {v : Value}
    (hn : isNumericDtype l = true) (hv : l[i]? = some v) : v.isNumeric = true := by
  obtain ⟨hlt, he⟩ := List.getElem?_eq_some_iff.mp hv
  exact isNumeric_of_mem hn (he ▸ List.getElem_mem hlt)

theorem dateDerive_preserves (t : Table) (c : String) (hw : t.Wf)
    (hcd : lcContains c "date" = false) (h2 : c ≠ "Year") (h3 : c ≠ "Month")
    (h4 : c ≠ "Month_Name") (h5 : c ≠ "Quarter") :
    getColD (dateDeriveTable t) c = getColD t c ∧
    (dateDeriveTable t).header.contains c = t.header.contains c ∧
    (dateDeriveTable t).Wf ∧
    (dateDeriveTable t).rows.length = t.rows.length := by
  cases hdc : resolveCol dateKeywords t.header with
  | none =>
    simp only [dateDeriveTable, hdc]
    exact ⟨trivial, trivial, hw, trivial⟩
  | some dc =>
    simp only [dateDeriveTable, hdc]
    have hdcmem := resolveCol_mem hdc
    have hdcne : c ≠ dc := by
      intro he
      subst he
      have hmc := hdcmem.2
      simp [matchesAny, dateKeywords, hcd] at hmc
    have hplen : ((getColD t dc).map toDatetime).length = t.rows.length := by
      rw [List.length_map, getColD_length_of_mem hdcmem.1]
    have hPwf : (setCol t dc ((getColD t dc).map toDatetime)).Wf := setCol_Wf _ _ _ hw hplen
    have hPlen : (setCol t dc ((getColD t dc).map toDatetime)).rows.length = t.rows.length :=
      setCol_rows_length _ _ _ hplen
    have hPget : getColD (setCol t dc ((getColD t dc).map toDatetime)) c = getColD t c :=
      getColD_setCol_other _ _ _ _ hw hplen hdcne
    have hPcont :
        (setCol t dc ((getColD t dc).map toDatetime)).header.contains c = t.header.contains c :=
      setCol_contains_other _ _ _ _ hdcne
    split
    · exact ⟨hPget, hPcont, hPwf, hPlen⟩
    · set tP := setCol t dc ((getColD t dc).map toDatetime) with htP
      set parsed := (getColD t dc).map toDatetime with hparsed
      have hyl : (parsed.map dtYear).length = tP.rows.length := by
        rw [List.length_map, hparsed, hplen, hPlen]
      have hYwf : (setCol tP "Year" (parsed.map dtYear)).Wf := setCol_Wf _ _ _ hPwf hyl
      have hYlen : (setCol tP "Year" (parsed.map dtYear)).rows.length = t.rows.length := by
        rw [setCol_rows_length _ _ _ hyl, hPlen]
      have hYget : getColD (setCol tP "Year" (parsed.map dtYear)) c = getColD t c := by
        rw [getColD_setCol_other _ _ _ _ hPwf hyl h2, hPget]
      have hYcont :
          (setCol tP "Year" (parsed.map dtYear)).header.contains c = t.header.contains c := by
        rw [setCol_contains_other _ _ _ _ h2, hPcont]
      set tY := setCol tP "Year" (parsed.map dtYear) with htY
      have hml : (parsed.map dtMonth).length = tY.rows.length := by
        rw [List.length_map, hparsed, hplen, hYlen]
      have hMwf : (setCol tY "Month" (parsed.map dtMonth)).Wf := setCol_Wf _ _ _ hYwf hml
      have hMlen : (setCol tY "Month" (parsed.map dtMonth)).rows.length = t.rows.length := by
        rw [setCol_rows_length _ _ _ hml, hYlen]
      have hMget : getColD (setCol tY "Month" (parsed.map dtMonth)) c = getColD t c := by
        rw [getColD_setCol_other _ _ _ _ hYwf hml h3, hYget]
      have hMcont :
          (setCol tY "Month" (parsed.map dtMonth)).header.contains c = t.header.contains c := by
        rw [setCol_contains_other _ _ _ _ h3, hYcont]
      set tM := setCol tY "Month" (parsed.map dtMonth) with htM
      have hnl : (parsed.map dtMonthName).length = tM.rows.length := by
        rw [List.length_map, hparsed, hplen, hMlen]
      have hNwf : (setCol tM "Month_Name" (parsed.map dtMonthName)).Wf := setCol_Wf _ _ _ hMwf hnl
      have hNlen :
          (setCol tM "Month_Name" (parsed.map dtMonthName)).rows.length = t.rows.length := by
        rw [setCol_rows_length _ _ _ hnl, hMlen]
      have hNget : getColD (setCol tM "Month_Name" (parsed.map dtMonthName)) c = getColD t c := by
        rw [getColD_setCol_other _ _ _ _ hMwf hnl h4, hMget]
      have hNcont :
          (setCol tM "Month_Name" (parsed.map dtMonthName)).header.contains c =
            t.header.contains c := by
        rw [setCol_contains_other _ _ _ _ h4, hMcont]
      set tN := setCol tM "Month_Name" (parsed.map dtMonthName) with htN
      have hql : (parsed.map dtQuarter).length = tN.rows.length := by
        rw [List.length_map, hparsed, hplen, hNlen]
      refine ⟨?_, ?_, ?_, ?_⟩
      · rw [getColD_setCol_other _ _ _ _ hNwf hql h5, hNget]
      · rw [setCol_contains_other _ _ _ _ h5, hNcont]
      · exact setCol_Wf _ _ _ hNwf hql
      · rw [setCol_rows_length _ _ _ hql, hNlen]

theorem deriveTables_spec {t0 : Table} {sc cc : String}
    (hw : t0.Wf)
    (hsc : resolveCol salesKeywords t0.header = some sc)
    (hcc : resolveCol costKeywords t0.header = some cc)
    (hpc : resolveCol profitKeywords t0.header = none)
    (hnsc : isNumericDtype (getColD t0 sc) = true)
    (hncc : isNumericDtype (getColD t0 cc) = true)
    (hq : ∀ qc, resolveCol quantityKeywords t0.header = some qc →
      isNumericDtype (getColD t0 qc) = true) :
    ∃ t4 li, deriveTables t0 = .ok (t4, li) ∧
      t4.header.contains "Profit" = true ∧
      t4.header.contains "Profit_Margin_Percentage" = true ∧
      (getColD t4 "Profit").length = t0.rows.length ∧
      (∀ (i : ℕ) (a b : Value), (getColD t0 sc)[i]? = some a →
        (getColD t0 cc)[i]? = some b → (getColD t4 "Profit")[i]? = vsub? a b) ∧
      (getColD t4 "Profit_Margin_Percentage").length = t0.rows.length ∧
      (∀ (i : ℕ) (w : Value), (getColD t0 sc)[i]? = some (Value.num 0) →
        (getColD t4 "Profit_Margin_Percentage")[i]? = some w → w.isNonFinite = true) ∧
      (∀ qc, resolveCol quantityKeywords t0.header = some qc →
        t4.header.contains "Average_Unit_Price" = true) := by
  obtain ⟨hscmem, hscmatch⟩ := resolveCol_mem hsc
  obtain ⟨hccmem, hccmatch⟩ := resolveCol_mem hcc
  have hnpP : "Profit" ∉ t0.header := fun hm =>
    absurd (resolveCol_none hpc _ hm) (by decide)
  have hnpM : "Profit_Margin_Percentage" ∉ t0.header := fun hm =>
    absurd (resolveCol_none hpc _ hm) (by decide)
  have hscP : sc ≠ "Profit" := fun he => hnpP (he ▸ hscmem)
  have hscM : sc ≠ "Profit_Margin_Percentage" := fun he => hnpM (he ▸ hscmem)
  have hSlen : (getColD t0 sc).length = t0.rows.length := getColD_length_of_mem hscmem
  have hClen : (getColD t0 cc).length = t0.rows.length := getColD_length_of_mem hccmem
  obtain ⟨pv, hpveq, hpvlen, hpvnum, hpvidx⟩ := seriesSub_ok hnsc hncc
  rw [hSlen, hClen, min_self] at hpvlen
  have hw1 : (setCol t0 "Profit" pv).Wf := setCol_Wf _ _ _ hw (by rw [hpvlen])
  have hlen1 : (setCol t0 "Profit" pv).rows.length = t0.rows.length :=
    setCol_rows_length _ _ _ (by rw [hpvlen])
  have hg1P : getColD (setCol t0 "Profit" pv) "Profit" = pv :=
    getColD_setCol_self _ _ _ hw (by rw [hpvlen])
  have hg1sc : getColD (setCol t0 "Profit" pv) sc = getColD t0 sc :=
    getColD_setCol_other _ _ _ _ hw (by rw [hpvlen]) hscP
  obtain ⟨mv, hmveq, hmvlen, hmvnum, hmvidx⟩ := seriesDiv_ok hpvnum hnsc
  rw [hpvlen, hSlen, min_self] at hmvlen
  have hmvmlen : (mv.map (fun v => round2 (vscale100 v))).length = t0.rows.length := by
    rw [List.length_map, hmvlen]
  have hPM : ("Profit" : String) ≠ "Profit_Margin_Percentage" := by decide
  have hw2 : (setCol (setCol t0 "Profit" pv) "Profit_Margin_Percentage"
      (mv.map (fun v => round2 (vscale100 v)))).Wf :=
    setCol_Wf _ _ _ hw1 (by rw [hmvmlen, hlen1])
  have hlen2 : (setCol (setCol t0 "Profit" pv) "Profit_Margin_Percentage"
      (mv.map (fun v => round2 (vscale100 v)))).rows.length = t0.rows.length := by
    rw [setCol_rows_length _ _ _ (by rw [hmvmlen, hlen1]), hlen1]
  have hg2P : getColD (setCol (setCol t0 "Profit" pv) "Profit_Margin_Percentage"
      (mv.map (fun v => round2 (vscale100 v)))) "Profit" = pv := by
    rw [getColD_setCol_other _ _ _ _ hw1 (by rw [hmvmlen, hlen1]) hPM, hg1P]
  have hg2M : getColD (setCol (setCol t0 "Profit" pv) "Profit_Margin_Percentage"
      (mv.map (fun v => round2 (vscale100 v)))) "Profit_Margin_Percentage" =
      mv.map (fun v => round2 (vscale100 v)) :=
    getColD_setCol_self _ _ _ hw1 (by rw [hmvmlen, hlen1])
  have hg2sc : getColD (setCol (setCol t0 "Profit" pv) "Profit_Margin_Percentage"
      (mv.map (fun v => round2 (vscale100 v)))) sc = getColD t0 sc := by
    rw [getColD_setCol_other _ _ _ _ hw1 (by rw [hmvmlen, hlen1]) hscM, hg1sc]
  have hc2P : (setCol (setCol t0 "Profit" pv) "Profit_Margin_Percentage"
      (mv.map (fun v => round2 (vscale100 v)))).header.contains "Profit" = true := by
    rw [setCol_contains_other _ _ _ _ hPM]
    exact setCol_contains_self _ _ _
  have hc2M : (setCol (setCol t0 "Profit" pv) "Profit_Margin_Percentage"
      (mv.map (fun v => round2 (vscale100 v)))).header.contains
        "Profit_Margin_Percentage" = true := setCol_contains_self _ _ _
  -- the Profit values of the intermediate table
  have hProfitIdx : ∀ (i : ℕ) (a b : Value), (getColD t0 sc)[i]? = some a →
      (getColD t0 cc)[i]? = some b → pv[i]? = vsub? a b := hpvidx
  -- the margin value at a zero-sales row is non-finite
  have hmargin : ∀ (i : ℕ) (w : Value), (getColD t0 sc)[i]? = some (Value.num 0) →
      (mv.map (fun v => round2 (vscale100 v)))[i]? = some w → w.isNonFinite = true := by
    intro i w hsi hwi
    have hilt : i < t0.rows.length := by
      obtain ⟨hl, _⟩ := List.getElem?_eq_some_iff.mp hsi
      rwa [hSlen] at hl
    have hcilt : i < (getColD t0 cc).length := by rw [hClen]; exact hilt
    obtain ⟨b, hbi⟩ : ∃ b, (getColD t0 cc)[i]? = some b :=
      ⟨_, List.getElem?_eq_getElem hcilt⟩
    have hbnum : b.isNumeric = true := isNumeric_of_getElem hncc hbi
    have hpvi := hpvidx i _ b hsi hbi
    obtain ⟨p, hp, hpnum⟩ := @vsub?_numeric (Value.num 0) b rfl hbnum
    rw [hp] at hpvi
    have hmvi := hmvidx i p (Value.num 0) hpvi hsi
    obtain ⟨z, hz, hznf⟩ := vdiv?_zero hpnum
    rw [hz] at hmvi
    rw [List.getElem?_map, hmvi] at hwi
    simp only [Option.map_some'] at hwi
    injection hwi with hwz
    rw [← hwz]
    exact round2_vscale100_nonFinite hznf
  cases hqc : resolveCol quantityKeywords t0.header with
  | none =>
    obtain ⟨hdP, hdcP, hdwf, hdlen⟩ := dateDerive_preserves
      (setCol (setCol t0 "Profit" pv) "Profit_Margin_Percentage"
        (mv.map (fun v => round2 (vscale100 v)))) "Profit" hw2
      (by decide) (by decide) (by decide) (by decide) (by decide)
    obtain ⟨hdM, hdcM, _, _⟩ := dateDerive_preserves
      (setCol (setCol t0 "Profit" pv) "Profit_Margin_Percentage"
        (mv.map (fun v => round2 (vscale100 v)))) "Profit_Margin_Percentage" hw2
      (by decide) (by decide) (by decide) (by decide) (by decide)
    obtain ⟨li2, hrun⟩ : ∃ li2, deriveTables t0 =
        .ok (dateDeriveTable (setCol (setCol t0 "Profit" pv) "Profit_Margin_Percentage"
          (mv.map (fun v => round2 (vscale100 v)))), li2) := by
      simp only [deriveTables, hsc, hcc, hpc, hqc, hpveq, hg1P, hg1sc, hmveq, dateDerive]
      exact ⟨_, rfl⟩
    refine ⟨_, _, hrun, ?_, ?_, ?_, ?_, ?_, ?_, ?_⟩
    · rw [hdcP]; exact hc2P
    · rw [hdcM]; exact hc2M
    · rw [hdP, hg2P, hpvlen]
    · intro i a b ha hb
      rw [hdP, hg2P]
      exact hpvidx i a b ha hb
    · rw [hdM, hg2M, hmvmlen]
    · intro i w hsi hwi
      rw [hdM, hg2M] at hwi
      exact hmargin i w hsi hwi
    · intro qc hqc2
      exact Option.noConfusion hqc2
  | some qc =>
    have hqnum := hq qc hqc
    obtain ⟨hqmem, hqmatch⟩ := resolveCol_mem hqc
    have hqP : qc ≠ "Profit" := fun he => hnpP (he ▸ hqmem)
    have hqM : qc ≠ "Profit_Margin_Percentage" := fun he => hnpM (he ▸ hqmem)
    have hQlen : (getColD t0 qc).length = t0.rows.length := getColD_length_of_mem hqmem
    have hg2qc : getColD (setCol (setCol t0 "Profit" pv) "Profit_Margin_Percentage"
        (mv.map (fun v => round2 (vscale100 v)))) qc = getColD t0 qc := by
      rw [getColD_setCol_other _ _ _ _ hw1 (by rw [hmvmlen, hlen1]) hqM,
        getColD_setCol_other _ _ _ _ hw (by rw [hpvlen]) hqP]
    obtain ⟨av, haveq, havlen, havnum, havidx⟩ := seriesDiv_ok hnsc hqnum
    rw [hSlen, hQlen, min_self] at havlen
    have havmlen : (av.map round2).length = t0.rows.length := by
      rw [List.length_map, havlen]
    have hMA : ("Profit_Margin_Percentage" : String) ≠ "Average_Unit_Price" := by decide
    have hPA : ("Profit" : String) ≠ "Average_Unit_Price" := by decide
    have hw3 : (setCol (setCol (setCol t0 "Profit" pv) "Profit_Margin_Percentage"
        (mv.map (fun v => round2 (vscale100 v)))) "Average_Unit_Price" (av.map round2)).Wf :=
      setCol_Wf _ _ _ hw2 (by rw [havmlen, hlen2])
    have hg3P : getColD (setCol (setCol (setCol t0 "Profit" pv) "Profit_Margin_Percentage"
        (mv.map (fun v => round2 (vscale100 v)))) "Average_Unit_Price" (av.map round2))
        "Profit" = pv := by
      rw [getColD_setCol_other _ _ _ _ hw2 (by rw [havmlen, hlen2]) hPA, hg2P]
    have hg3M : getColD (setCol (setCol (setCol t0 "Profit" pv) "Profit_Margin_Percentage"
        (mv.map (fun v => round2 (vscale100 v)))) "Average_Unit_Price" (av.map round2))
        "Profit_Margin_Percentage" = mv.map (fun v => round2 (vscale100 v)) := by
      rw [getColD_setCol_other _ _ _ _ hw2 (by rw [havmlen, hlen2]) hMA, hg2M]
    have hc3P : (setCol (setCol (setCol t0 "Profit" pv) "Profit_Margin_Percentage"
        (mv.map (fun v => round2 (vscale100 v)))) "Average_Unit_Price"
        (av.map round2)).header.contains "Profit" = true := by
      rw [setCol_contains_other _ _ _ _ hPA]
      exact hc2P
    have hc3M : (setCol (setCol (setCol t0 "Profit" pv) "Profit_Margin_Percentage"
        (mv.map (fun v => round2 (vscale100 v)))) "Average_Unit_Price"
        (av.map round2)).header.contains "Profit_Margin_Percentage" = true := by
      rw [setCol_contains_other _ _ _ _ hMA]
      exact hc2M
    have hc3A : (setCol (setCol (setCol t0 "Profit" pv) "Profit_Margin_Percentage"
        (mv.map (fun v => round2 (vscale100 v)))) "Average_Unit_Price"
        (av.map round2)).header.contains "Average_Unit_Price" = true :=
      setCol_contains_self _ _ _
    obtain ⟨hdP, hdcP, hdwf, hdlen⟩ := dateDerive_preserves
      (setCol (setCol (setCol t0 "Profit" pv) "Profit_Margin_Percentage"
        (mv.map (fun v => round2 (vscale100 v)))) "Average_Unit_Price" (av.map round2))
      "Profit" hw3 (by decide) (by decide) (by decide) (by decide) (by decide)
    obtain ⟨hdM, hdcM, _, _⟩ := dateDerive_preserves
      (setCol (setCol (setCol t0 "Profit" pv) "Profit_Margin_Percentage"
        (mv.map (fun v => round2 (vscale100 v)))) "Average_Unit_Price" (av.map round2))
      "Profit_Margin_Percentage" hw3 (by decide) (by decide) (by decide) (by decide) (by decide)
    obtain ⟨_, hdcA, _, _⟩ := dateDerive_preserves
      (setCol (setCol (setCol t0 "Profit" pv) "Profit_Margin_Percentage"
        (mv.map (fun v => round2 (vscale100 v)))) "Average_Unit_Price" (av.map round2))
      "Average_Unit_Price" hw3 (by decide) (by decide) (by decide) (by decide) (by decide)
    obtain ⟨li3, hrun⟩ : ∃ li3, deriveTables t0 =
        .ok (dateDeriveTable (setCol (setCol (setCol t0 "Profit" pv)
          "Profit_Margin_Percentage" (mv.map (fun v => round2 (vscale100 v))))
          "Average_Unit_Price" (av.map round2)), li3) := by
      simp only [deriveTables, hsc, hcc, hpc, hqc, hpveq, hg1P, hg1sc, hmveq, hg2sc, hg2qc,
        haveq, dateDerive]
      exact ⟨_, rfl⟩
    refine ⟨_, _, hrun, ?_, ?_, ?_, ?_, ?_, ?_, ?_⟩
    · rw [hdcP]; exact hc3P
    · rw [hdcM]; exact hc3M
    · rw [hdP, hg3P, hpvlen]
    · intro i a b ha hb
      rw [hdP, hg3P]
      exact hpvidx i a b ha hb
    · rw [hdM, hg3M, hmvmlen]
    · intro i w hsi hwi
      rw [hdM, hg3M] at hwi
      exact hmargin i w hsi hwi
    · intro qc2 _
      exact hdcA ▸ hc3A

theorem dateDeriveTable_contains (t : Table) (c : String)
    (hcd : lcContains c "date" = false) (h2 : c ≠ "Year") (h3 : c ≠ "Month")
    (h4 : c ≠ "Month_Name") (h5 : c ≠ "Quarter") :
    (dateDeriveTable t).header.contains c = t.header.contains c := by
  cases hdc : resolveCol dateKeywords t.header with
  | none => simp only [dateDeriveTable, hdc]
  | some dc =>
    simp only [dateDeriveTable, hdc]
    have hdcne : c ≠ dc := by
      intro he
      subst he
      have hmc := (resolveCol_mem hdc).2
      simp [matchesAny, dateKeywords, hcd] at hmc
    split
    · exact setCol_contains_other _ _ _ _ hdcne
    · rw [setCol_contains_other _ _ _ _ h5, setCol_contains_other _ _ _ _ h4,
        setCol_contains_other _ _ _ _ h3, setCol_contains_other _ _ _ _ h2,
        setCol_contains_other _ _ _ _ hdcne]

theorem deriveTables_no_profit_added {t0 : Table} {pc : String} {t4 : Table} {li : List String}
    (hpc : resolveCol profitKeywords t0.header = some pc)
    (h : deriveTables t0 = .ok (t4, li)) :
    t4.header.contains "Profit" = t0.header.contains "Profit" := by
  have hdc : ∀ t : Table,
      (dateDeriveTable t).header.contains "Profit" = t.header.contains "Profit" :=
    fun t => dateDeriveTable_contains t "Profit" (by decide) (by decide) (by decide)
      (by decide) (by decide)
  have hmarg : ∀ (t : Table) (vs : List Value),
      (setCol t "Profit_Margin_Percentage" vs).header.contains "Profit" =
        t.header.contains "Profit" :=
    fun t vs => setCol_contains_other t _ _ vs (by decide)
  have havg : ∀ (t : Table) (vs : List Value),
      (setCol t "Average_Unit_Price" vs).header.contains "Profit" =
        t.header.contains "Profit" :=
    fun t vs => setCol_contains_other t _ _ vs (by decide)
  simp only [deriveTables, hpc, dateDerive] at h
  cases hsal : resolveCol salesKeywords t0.header with
  | none =>
    simp only [hsal] at h
    injection h with h2
    injection h2 with h3 h4
    rw [← h3, hdc]
  | some sc =>
    simp only [hsal] at h
    cases hcost : resolveCol costKeywords t0.header with
    | none => ?_
    | some cc => ?_
    all_goals
    simp only [hcost] at h
    all_goals
    cases hdiv : seriesDiv (getColD t0 pc) (getColD t0 sc) with
    | error e =>
      simp only [hdiv] at h
      exact Except.noConfusion h
    | ok mv =>
      simp only [hdiv] at h
      cases hqty : resolveCol quantityKeywords t0.header with
      | none =>
        simp only [hqty] at h
        injection h with h2
        injection h2 with h3 h4
        rw [← h3, hdc]
        simp only [hmarg, havg]
      | some qc =>
        simp only [hqty] at h
        cases hdiv2 : seriesDiv
            (getColD (setCol t0 "Profit_Margin_Percentage"
              (mv.map (fun v => round2 (vscale100 v)))) sc)
            (getColD (setCol t0 "Profit_Margin_Percentage"
              (mv.map (fun v => round2 (vscale100 v)))) qc) with
        | error e =>
          simp only [hdiv2] at h
          exact Except.noConfusion h
        | ok av =>
          simp only [hdiv2] at h
          injection h with h2
          injection h2 with h3 h4
          rw [← h3, hdc]
          simp only [hmarg, havg]

/-- C1 — If the Sales and Cost roles both resolve and no profit-matching
column exists, derivation adds a column named Profit whose value in every
row is exactly Sales minus Cost (exact rational subtraction on finite
values); if a profit-matching column already exists, no Profit column is
added.  Numeric-dtype side conditions reflect that pandas raises a
TypeError on non-numeric operands. -/
theorem c1_profit_derivation :
    (∀ (s : Analyzer) (sc cc : String),
      s.df.Wf →
      resolveCol salesKeywords s.df.header = some sc →
      resolveCol costKeywords s.df.header = some cc →
      resolveCol profitKeywords s.df.header = none →
      isNumericDtype (getColD s.df sc) = true →
      isNumericDtype (getColD s.df cc) = true →
      (∀ qc, resolveCol quantityKeywords s.df.header = some qc →
        isNumericDtype (getColD s.df qc) = true) →
      ∃ s', addDerivedColumns s = .ok s' ∧
        s'.df.header.contains "Profit" = true ∧
        (getColD s'.df "Profit").length = s.df.rows.length ∧
        ∀ (i : ℕ) (a b : ℚ), (getColD s.df sc)[i]? = some (Value.num a) →
          (getColD s.df cc)[i]? = some (Value.num b) →
          (getColD s'.df "Profit")[i]? = some (Value.num (a - b))) ∧
    (∀ (s s' : Analyzer) (pc : String),
      resolveCol profitKeywords s.df.header = some pc →
      addDerivedColumns s = .ok s' →
      s'.df.header.contains "Profit" = s.df.header.contains "Profit") := by
  constructor
  · intro s sc cc hw hsc hcc hpc hnsc hncc hq
    obtain ⟨t4, li, hrun, hcP, _, hlenP, hidx, _, _, _⟩ :=
      deriveTables_spec hw hsc hcc hpc hnsc hncc hq
    obtain ⟨s', hadd, hdf⟩ : ∃ s', addDerivedColumns s = .ok s' ∧ s'.df = t4 := by
      simp only [addDerivedColumns, hrun]
      exact ⟨_, rfl, rfl⟩
    refine ⟨s', hadd, ?_, ?_, ?_⟩
    · rw [hdf]; exact hcP
    · rw [hdf]; exact hlenP
    · intro i a b ha hb
      rw [hdf, hidx i (Value.num a) (Value.num b) ha hb]
      rfl
  · intro s s' pc hpc hadd
    simp only [addDerivedColumns] at hadd
    cases hdt : deriveTables s.df with
    | error e =>
      rw [hdt] at hadd
      exact Except.noConfusion hadd
    | ok p =>
      obtain ⟨t4, li4⟩ := p
      rw [hdt] at hadd
      injection hadd with h2
      have hcontains := deriveTables_no_profit_added hpc hdt
      rw [← h2]
      exact hcontains

/-- Witness for C1: both halves at concrete tables — a [Sales, Cost]
table gets Profit = Sales − Cost, and a table that already has
Gross_Profit gains no Profit column. -/
theorem c1_profit_derivation_witness :
    (∃ s', addDerivedColumns (loadState exT1) = .ok s' ∧
      s'.df.header.contains "Profit" = true ∧
      (getColD s'.df "Profit").length = (loadState exT1).df.rows.length ∧
      ∀ (i : ℕ) (a b : ℚ),
        (getColD (loadState exT1).df "Sales")[i]? = some (Value.num a) →
        (getColD (loadState exT1).df "Cost")[i]? = some (Value.num b) →
        (getColD s'.df "Profit")[i]? = some (Value.num (a - b))) ∧
    c1state.df.header.contains "Profit" = (loadState exT1b).df.header.contains "Profit" :=
  ⟨c1_profit_derivation.1 (loadState exT1) "Sales" "Cost" (by decide) (by decide) (by decide)
      (by decide) (by decide) (by decide)
      (fun qc h => by
        have hn : (none : Option String) = some qc := h
        exact Option.noConfusion hn),
    c1_profit_derivation.2 (loadState exT1b) c1state "Gross_Profit" (by decide) rfl⟩


theorem deriveTables_spec_profitExisting {t0 : Table} {sc pc : String}
    (hw : t0.Wf)
    (hsc : resolveCol salesKeywords t0.header = some sc)
    (hpc : resolveCol profitKeywords t0.header = some pc)
    (hnsc : isNumericDtype (getColD t0 sc) = true)
    (hnpc : isNumericDtype (getColD t0 pc) = true)
    (hq : ∀ qc, resolveCol quantityKeywords t0.header = some qc →
      isNumericDtype (getColD t0 qc) = true) :
    ∃ t4 li, deriveTables t0 = .ok (t4, li) ∧
      t4.header.contains "Profit_Margin_Percentage" = true ∧
      (getColD t4 "Profit_Margin_Percentage").length = t0.rows.length ∧
      (∀ (i : ℕ) (w : Value), (getColD t0 sc)[i]? = some (Value.num 0) →
        (getColD t4 "Profit_Margin_Percentage")[i]? = some w → w.isNonFinite = true) ∧
      (∀ qc, resolveCol quantityKeywords t0.header = some qc →
        t4.header.contains "Average_Unit_Price" = true) := by
  obtain ⟨hscmem, hscmatch⟩ := resolveCol_mem hsc
  obtain ⟨hpcmem, hpcmatch⟩ := resolveCol_mem hpc
  have hscM : sc ≠ "Profit_Margin_Percentage" := by
    intro he
    rw [he] at hscmatch
    exact absurd hscmatch (by decide)
  have hSlen : (getColD t0 sc).length = t0.rows.length := getColD_length_of_mem hscmem
  have hPlen : (getColD t0 pc).length = t0.rows.length := getColD_length_of_mem hpcmem
  obtain ⟨mv, hmveq, hmvlen, hmvnum, hmvidx⟩ := seriesDiv_ok hnpc hnsc
  rw [hPlen, hSlen, min_self] at hmvlen
  have hmvmlen : (mv.map (fun v => round2 (vscale100 v))).length = t0.rows.length := by
    rw [List.length_map, hmvlen]
  have hw2 : (setCol t0 "Profit_Margin_Percentage"
      (mv.map (fun v => round2 (vscale100 v)))).Wf :=
    setCol_Wf _ _ _ hw (by rw [hmvmlen])
  have hlen2 : (setCol t0 "Profit_Margin_Percentage"
      (mv.map (fun v => round2 (vscale100 v)))).rows.length = t0.rows.length :=
    setCol_rows_length _ _ _ (by rw [hmvmlen])
  have hg2M : getColD (setCol t0 "Profit_Margin_Percentage"
      (mv.map (fun v => round2 (vscale100 v)))) "Profit_Margin_Percentage" =
      mv.map (fun v => round2 (vscale100 v)) :=
    getColD_setCol_self _ _ _ hw (by rw [hmvmlen])
  have hg2sc : getColD (setCol t0 "Profit_Margin_Percentage"
      (mv.map (fun v => round2 (vscale100 v)))) sc = getColD t0 sc :=
    getColD_setCol_other _ _ _ _ hw (by rw [hmvmlen]) hscM
  have hc2M : (setCol t0 "Profit_Margin_Percentage"
      (mv.map (fun v => round2 (vscale100 v)))).header.contains
        "Profit_Margin_Percentage" = true := setCol_contains_self _ _ _
  have hmargin : ∀ (i : ℕ) (w : Value), (getColD t0 sc)[i]? = some (Value.num 0) →
      (mv.map (fun v => round2 (vscale100 v)))[i]? = some w → w.isNonFinite = true := by
    intro i w hsi hwi
    have hilt : i < t0.rows.length := by
      obtain ⟨hl, _⟩ := List.getElem?_eq_some_iff.mp hsi
      rwa [hSlen] at hl
    have hplt : i < (getColD t0 pc).length := by
      rw [hPlen]
      exact hilt
    obtain ⟨p, hpi⟩ : ∃ p, (getColD t0 pc)[i]? = some p :=
      ⟨_, List.getElem?_eq_getElem hplt⟩
    have hpnum : p.isNumeric = true := isNumeric_of_getElem hnpc hpi
    have hmvi := hmvidx i p (Value.num 0) hpi hsi
    obtain ⟨z, hz, hznf⟩ := vdiv?_zero hpnum
    rw [hz] at hmvi
    rw [List.getElem?_map, hmvi] at hwi
    simp only [Option.map_some'] at hwi
    injection hwi with hwz
    rw [← hwz]
    exact round2_vscale100_nonFinite hznf
  cases hqc : resolveCol quantityKeywords t0.header with
  | none =>
    obtain ⟨hdM, hdcM, _, _⟩ := dateDerive_preserves
      (setCol t0 "Profit_Margin_Percentage" (mv.map (fun v => round2 (vscale100 v))))
      "Profit_Margin_Percentage" hw2 (by decide) (by decide) (by decide) (by decide) (by decide)
    obtain ⟨li2, hrun⟩ : ∃ li2, deriveTables t0 =
        .ok (dateDeriveTable (setCol t0 "Profit_Margin_Percentage"
          (mv.map (fun v => round2 (vscale100 v)))), li2) := by
      cases hcost : resolveCol costKeywords t0.header <;>
        simp only [deriveTables, hsc, hcost, hpc, hqc, hmveq, dateDerive] <;>
        exact ⟨_, rfl⟩
    refine ⟨_, _, hrun, ?_, ?_, ?_, ?_⟩
    · rw [hdcM]
      exact hc2M
    · rw [hdM, hg2M, hmvmlen]
    · intro i w hsi hwi
      rw [hdM, hg2M] at hwi
      exact hmargin i w hsi hwi
    · intro qc hqc2
      exact Option.noConfusion hqc2
  | some qc =>
    have hqnum := hq qc hqc
    obtain ⟨hqmem, hqmatch⟩ := resolveCol_mem hqc
    have hqM : qc ≠ "Profit_Margin_Percentage" := by
      intro he
      rw [he] at hqmatch
      exact absurd hqmatch (by decide)
    have hQlen : (getColD t0 qc).length = t0.rows.length := getColD_length_of_mem hqmem
    have hg2qc : getColD (setCol t0 "Profit_Margin_Percentage"
        (mv.map (fun v => round2 (vscale100 v)))) qc = getColD t0 qc :=
      getColD_setCol_other _ _ _ _ hw (by rw [hmvmlen]) hqM
    obtain ⟨av, haveq, havlen, havnum, havidx⟩ := seriesDiv_ok hnsc hqnum
    rw [hSlen, hQlen, min_self] at havlen
    have havmlen : (av.map round2).length = t0.rows.length := by
      rw [List.length_map, havlen]
    have hMA : ("Profit_Margin_Percentage" : String) ≠ "Average_Unit_Price" := by decide
    have hw3 : (setCol (setCol t0 "Profit_Margin_Percentage"
        (mv.map (fun v => round2 (vscale100 v)))) "Average_Unit_Price" (av.map round2)).Wf :=
      setCol_Wf _ _ _ hw2 (by rw [havmlen, hlen2])
    have hg3M : getColD (setCol (setCol t0 "Profit_Margin_Percentage"
        (mv.map (fun v => round2 (vscale100 v)))) "Average_Unit_Price" (av.map round2))
        "Profit_Margin_Percentage" = mv.map (fun v => round2 (vscale100 v)) := by
      rw [getColD_setCol_other _ _ _ _ hw2 (by rw [havmlen, hlen2]) hMA, hg2M]
    have hc3M : (setCol (setCol t0 "Profit_Margin_Percentage"
        (mv.map (fun v => round2 (vscale100 v)))) "Average_Unit_Price"
        (av.map round2)).header.contains "Profit_Margin_Percentage" = true := by
      rw [setCol_contains_other _ _ _ _ hMA]
      exact hc2M
    have hc3A : (setCol (setCol t0 "Profit_Margin_Percentage"
        (mv.map (fun v => round2 (vscale100 v)))) "Average_Unit_Price"
        (av.map round2)).header.contains "Average_Unit_Price" = true :=
      setCol_contains_self _ _ _
    obtain ⟨hdM, hdcM, _, _⟩ := dateDerive_preserves
      (setCol (setCol t0 "Profit_Margin_Percentage"
        (mv.map (fun v => round2 (vscale100 v)))) "Average_Unit_Price" (av.map round2))
      "Profit_Margin_Percentage" hw3 (by decide) (by decide) (by decide) (by decide) (by decide)
    obtain ⟨_, hdcA, _, _⟩ := dateDerive_preserves
      (setCol (setCol t0 "Profit_Margin_Percentage"
        (mv.map (fun v => round2 (vscale100 v)))) "Average_Unit_Price" (av.map round2))
      "Average_Unit_Price" hw3 (by decide) (by decide) (by decide) (by decide) (by decide)
    obtain ⟨li3, hrun⟩ : ∃ li3, deriveTables t0 =
        .ok (dateDeriveTable (setCol (setCol t0 "Profit_Margin_Percentage"
          (mv.map (fun v => round2 (vscale100 v)))) "Average_Unit_Price" (av.map round2)),
          li3) := by
      cases hcost : resolveCol costKeywords t0.header <;>
        simp only [deriveTables, hsc, hcost, hpc, hqc, hmveq, hg2sc, hg2qc, haveq,
          dateDerive] <;>
        exact ⟨_, rfl⟩
    refine ⟨_, _, hrun, ?_, ?_, ?_, ?_⟩
    · rw [hdcM]
      exact hc3M
    · rw [hdM, hg3M, hmvmlen]
    · intro i w hsi hwi
      rw [hdM, hg3M] at hwi
      exact hmargin i w hsi hwi
    · intro qc2 _
      exact hdcA ▸ hc3A

theorem deriveTables_spec_noCost {t0 : Table} {sc : String}
    (hw : t0.Wf)
    (hsc : resolveCol salesKeywords t0.header = some sc)
    (hcc : resolveCol costKeywords t0.header = none)
    (hpc : resolveCol profitKeywords t0.header = none)
    (hnsc : isNumericDtype (getColD t0 sc) = true)
    (hq : ∀ qc, resolveCol quantityKeywords t0.header = some qc →
      isNumericDtype (getColD t0 qc) = true) :
    ∃ t4 li, deriveTables t0 = .ok (t4, li) ∧
      (∀ qc, resolveCol quantityKeywords t0.header = some qc →
        t4.header.contains "Average_Unit_Price" = true) := by
  obtain ⟨hscmem, hscmatch⟩ := resolveCol_mem hsc
  have hSlen : (getColD t0 sc).length = t0.rows.length := getColD_length_of_mem hscmem
  cases hqc : resolveCol quantityKeywords t0.header with
  | none =>
    obtain ⟨li2, hrun⟩ : ∃ li2, deriveTables t0 = .ok (dateDeriveTable t0, li2) := by
      simp only [deriveTables, hsc, hcc, hpc, hqc, dateDerive]
      exact ⟨_, rfl⟩
    refine ⟨_, _, hrun, ?_⟩
    intro qc hqc2
    exact Option.noConfusion hqc2
  | some qc =>
    have hqnum := hq qc hqc
    obtain ⟨hqmem, hqmatch⟩ := resolveCol_mem hqc
    have hQlen : (getColD t0 qc).length = t0.rows.length := getColD_length_of_mem hqmem
    obtain ⟨av, haveq, havlen, havnum, havidx⟩ := seriesDiv_ok hnsc hqnum
    rw [hSlen, hQlen, min_self] at havlen
    have havmlen : (av.map round2).length = t0.rows.length := by
      rw [List.length_map, havlen]
    have hw3 : (setCol t0 "Average_Unit_Price" (av.map round2)).Wf :=
      setCol_Wf _ _ _ hw (by rw [havmlen])
    have hc3A : (setCol t0 "Average_Unit_Price"
        (av.map round2)).header.contains "Average_Unit_Price" = true :=
      setCol_contains_self _ _ _
    obtain ⟨_, hdcA, _, _⟩ := dateDerive_preserves
      (setCol t0 "Average_Unit_Price" (av.map round2))
      "Average_Unit_Price" hw3 (by decide) (by decide) (by decide) (by decide) (by decide)
    obtain ⟨li3, hrun⟩ : ∃ li3, deriveTables t0 =
        .ok (dateDeriveTable (setCol t0 "Average_Unit_Price" (av.map round2)), li3) := by
      simp only [deriveTables, hsc, hcc, hpc, hqc, haveq, dateDerive]
      exact ⟨_, rfl⟩
    refine ⟨_, _, hrun, ?_⟩
    intro qc2 _
    exact hdcA ▸ hc3A

/-- C9 — On every table in which the Sales role resolves (to a numeric
column) and some row has Sales equal to zero, derivation does not crash:
Average_Unit_Price is added whenever the Quantity role resolves, and
whenever the margin is computed — the Profit role resolves to a
pre-existing column, or is derived because Cost resolves — the zero-Sales
row's Profit_Margin_Percentage is an undefined/NaN-equivalent value (NaN
or a signed infinity).  Numeric-dtype side conditions on whichever of the
cost/profit/quantity roles resolve reflect that pandas raises a TypeError
on non-numeric operands. -/
theorem c9_zero_sales_nan :
    ∀ (s : Analyzer) (sc : String) (i : ℕ),
      s.df.Wf →
      resolveCol salesKeywords s.df.header = some sc →
      isNumericDtype (getColD s.df sc) = true →
      (∀ cc, resolveCol costKeywords s.df.header = some cc →
        isNumericDtype (getColD s.df cc) = true) →
      (∀ pc, resolveCol profitKeywords s.df.header = some pc →
        isNumericDtype (getColD s.df pc) = true) →
      (∀ qc, resolveCol quantityKeywords s.df.header = some qc →
        isNumericDtype (getColD s.df qc) = true) →
      (getColD s.df sc)[i]? = some (Value.num 0) →
      ∃ s', addDerivedColumns s = .ok s' ∧
        (∀ qc, resolveCol quantityKeywords s.df.header = some qc →
          s'.df.header.contains "Average_Unit_Price" = true) ∧
        (resolveCol profitKeywords s.df.header ≠ none ∨
            resolveCol costKeywords s.df.header ≠ none →
          s'.df.header.contains "Profit_Margin_Percentage" = true ∧
          ∃ w, (getColD s'.df "Profit_Margin_Percentage")[i]? = some w ∧
            w.isNonFinite = true) := by
  intro s sc i hw hsc hnsc hncc hnpc hnqc hzero
  have hslen : (getColD s.df sc).length = s.df.rows.length :=
    getColD_length_of_mem (resolveCol_mem hsc).1
  have hilt : i < s.df.rows.length := by
    obtain ⟨hl, _⟩ := List.getElem?_eq_some_iff.mp hzero
    rwa [hslen] at hl
  cases hpc : resolveCol profitKeywords s.df.header with
  | some pc =>
    obtain ⟨t4, li, hrun, hcM, hlenM, hmargin, hqty⟩ :=
      deriveTables_spec_profitExisting hw hsc hpc hnsc (hnpc pc hpc) hnqc
    obtain ⟨s', hadd, hdf⟩ : ∃ s', addDerivedColumns s = .ok s' ∧ s'.df = t4 := by
      simp only [addDerivedColumns, hrun]
      exact ⟨_, rfl, rfl⟩
    have hmlt : i < (getColD t4 "Profit_Margin_Percentage").length := by
      rw [hlenM]
      exact hilt
    obtain ⟨w, hwi⟩ : ∃ w, (getColD t4 "Profit_Margin_Percentage")[i]? = some w :=
      ⟨_, List.getElem?_eq_getElem hmlt⟩
    refine ⟨s', hadd, ?_, ?_⟩
    · intro qc hqc2
      rw [hdf]
      exact hqty qc hqc2
    · intro _
      refine ⟨by rw [hdf]; exact hcM, w, by rw [hdf]; exact hwi, ?_⟩
      exact hmargin i w hzero hwi
  | none =>
    cases hcc : resolveCol costKeywords s.df.header with
    | some cc =>
      obtain ⟨t4, li, hrun, _, hcM, _, _, hlenM, hmargin, hqty⟩ :=
        deriveTables_spec hw hsc hcc hpc hnsc (hncc cc hcc) hnqc
      obtain ⟨s', hadd, hdf⟩ : ∃ s', addDerivedColumns s = .ok s' ∧ s'.df = t4 := by
        simp only [addDerivedColumns, hrun]
        exact ⟨_, rfl, rfl⟩
      have hmlt : i < (getColD t4 "Profit_Margin_Percentage").length := by
        rw [hlenM]
        exact hilt
      obtain ⟨w, hwi⟩ : ∃ w, (getColD t4 "Profit_Margin_Percentage")[i]? = some w :=
        ⟨_, List.getElem?_eq_getElem hmlt⟩
      refine ⟨s', hadd, ?_, ?_⟩
      · intro qc hqc2
        rw [hdf]
        exact hqty qc hqc2
      · intro _
        refine ⟨by rw [hdf]; exact hcM, w, by rw [hdf]; exact hwi, ?_⟩
        exact hmargin i w hzero hwi
    | none =>
      obtain ⟨t4, li, hrun, hqty⟩ := deriveTables_spec_noCost hw hsc hcc hpc hnsc hnqc
      obtain ⟨s', hadd, hdf⟩ : ∃ s', addDerivedColumns s = .ok s' ∧ s'.df = t4 := by
        simp only [addDerivedColumns, hrun]
        exact ⟨_, rfl, rfl⟩
      refine ⟨s', hadd, ?_, ?_⟩
      · intro qc hqc2
        rw [hdf]
        exact hqty qc hqc2
      · intro hor
        rcases hor with hor | hor
        · exact absurd rfl hor
        · exact absurd rfl hor

/-- Witness for C9 on two concrete tables with a zero Sales in row 0:
one where Profit is derived from Sales and Cost, and one where a Profit
column pre-exists; in both the margin at row 0 is non-finite. -/
theorem c9_zero_sales_nan_witness :
    (∃ s', addDerivedColumns (loadState exT9) = .ok s' ∧
      (∀ qc, resolveCol quantityKeywords (loadState exT9).df.header = some qc →
        s'.df.header.contains "Average_Unit_Price" = true) ∧
      (resolveCol profitKeywords (loadState exT9).df.header ≠ none ∨
          resolveCol costKeywords (loadState exT9).df.header ≠ none →
        s'.df.header.contains "Profit_Margin_Percentage" = true ∧
        ∃ w, (getColD s'.df "Profit_Margin_Percentage")[0]? = some w ∧
          w.isNonFinite = true)) ∧
    (∃ s', addDerivedColumns (loadState exT9b) = .ok s' ∧
      (∀ qc, resolveCol quantityKeywords (loadState exT9b).df.header = some qc →
        s'.df.header.contains "Average_Unit_Price" = true) ∧
      (resolveCol profitKeywords (loadState exT9b).df.header ≠ none ∨
          resolveCol costKeywords (loadState exT9b).df.header ≠ none →
        s'.df.header.contains "Profit_Margin_Percentage" = true ∧
        ∃ w, (getColD s'.df "Profit_Margin_Percentage")[0]? = some w ∧
          w.isNonFinite = true)) :=
  ⟨c9_zero_sales_nan (loadState exT9) "Sales" 0 (by decide) (by decide) (by decide)
      (fun cc h => by
        have h2 : some "Cost" = some cc := h
        injection h2 with h3
        subst h3
        decide)
      (fun pc h => by
        have h2 : (none : Option String) = some pc := h
        exact Option.noConfusion h2)
      (fun qc h => by
        have h2 : some "Quantity" = some qc := h
        injection h2 with h3
        subst h3
        decide)
      (by decide),
    c9_zero_sales_nan (loadState exT9b) "Sales" 0 (by decide) (by decide) (by decide)
      (fun cc h => by
        have h2 : (none : Option String) = some cc := h
        exact Option.noConfusion h2)
      (fun pc h => by
        have h2 : some "Profit" = some pc := h
        injection h2 with h3
        subst h3
        decide)
      (fun qc h => by
        have h2 : some "Quantity" = some qc := h
        injection h2 with h3
        subst h3
        decide)
      (by decide)⟩

theorem seriesSub_error {as bs : List Value} {e : PyErr} (h : seriesSub as bs = .error e) :
    e = PyErr.typeError "unsupported operand type for -" := by
  rw [seriesSub] at h
  cases hx : seqOpt (List.zipWith vsub? as bs) with
  | none =>
    simp only [hx] at h
    injection h with h2
    exact h2.symm
  | some l =>
    simp only [hx] at h
    exact Except.noConfusion h

theorem seriesDiv_error {as bs : List Value} {e : PyErr} (h : seriesDiv as bs = .error e) :
    e = PyErr.typeError "unsupported operand type for /" := by
  rw [seriesDiv] at h
  cases hx : seqOpt (List.zipWith vdiv? as bs) with
  | none =>
    simp only [hx] at h
    injection h with h2
    exact h2.symm
  | some l =>
    simp only [hx] at h
    exact Except.noConfusion h

theorem deriveTables_error_type {t0 : Table} {e : PyErr} (h : deriveTables t0 = .error e) :
    ∃ msg, e = PyErr.typeError msg := by
  cases hsal : resolveCol salesKeywords t0.header with
  | none =>
    simp only [deriveTables, dateDerive, hsal] at h
    exact Except.noConfusion h
  | some sc =>
    cases hprof : resolveCol profitKeywords t0.header with
    | none =>
      cases hcost : resolveCol costKeywords t0.header with
      | none =>
        simp only [deriveTables, dateDerive, hsal, hcost, hprof] at h
        cases hqty : resolveCol quantityKeywords t0.header with
        | none =>
          simp only [hqty] at h
          exact Except.noConfusion h
        | some qc =>
          simp only [hqty] at h
          cases hd2 : seriesDiv (getColD t0 sc) (getColD t0 qc) with
          | error e2 =>
            simp only [hd2] at h
            injection h with h2
            exact ⟨_, h2 ▸ seriesDiv_error hd2⟩
          | ok av =>
            simp only [hd2] at h
            exact Except.noConfusion h
      | some cc =>
        simp only [deriveTables, dateDerive, hsal, hcost, hprof] at h
        cases hs1 : seriesSub (getColD t0 sc) (getColD t0 cc) with
        | error e1 =>
          simp only [hs1] at h
          injection h with h2
          exact ⟨_, h2 ▸ seriesSub_error hs1⟩
        | ok pv =>
          simp only [hs1] at h
          cases hd1 : seriesDiv (getColD (setCol t0 "Profit" pv) "Profit")
              (getColD (setCol t0 "Profit" pv) sc) with
          | error e1 =>
            simp only [hd1] at h
            injection h with h2
            exact ⟨_, h2 ▸ seriesDiv_error hd1⟩
          | ok mv =>
            simp only [hd1] at h
            cases hqty : resolveCol quantityKeywords t0.header with
            | none =>
              simp only [hqty] at h
              exact Except.noConfusion h
            | some qc =>
              simp only [hqty] at h
              cases hd2 : seriesDiv
                  (getColD (setCol (setCol t0 "Profit" pv) "Profit_Margin_Percentage"
                    (mv.map (fun v => round2 (vscale100 v)))) sc)
                  (getColD (setCol (setCol t0 "Profit" pv) "Profit_Margin_Percentage"
                    (mv.map (fun v => round2 (vscale100 v)))) qc) with
              | error e2 =>
                simp only [hd2] at h
                injection h with h2
                exact ⟨_, h2 ▸ seriesDiv_error hd2⟩
              | ok av =>
                simp only [hd2] at h
                exact Except.noConfusion h
    | some pc =>
      cases hcost : resolveCol costKeywords t0.header <;>
        simp only [deriveTables, dateDerive, hsal, hprof, hcost] at h <;>
      cases hd1 : seriesDiv (getColD t0 pc) (getColD t0 sc) with
      | error e1 =>
        simp only [hd1] at h
        injection h with h2
        exact ⟨_, h2 ▸ seriesDiv_error hd1⟩
      | ok mv =>
        simp only [hd1] at h
        cases hqty : resolveCol quantityKeywords t0.header with
        | none =>
          simp only [hqty] at h
          exact Except.noConfusion h
        | some qc =>
          simp only [hqty] at h
          cases hd2 : seriesDiv
              (getColD (setCol t0 "Profit_Margin_Percentage"
                (mv.map (fun v => round2 (vscale100 v)))) sc)
              (getColD (setCol t0 "Profit_Margin_Percentage"
                (mv.map (fun v => round2 (vscale100 v)))) qc) with
          | error e2 =>
            simp only [hd2] at h
            injection h with h2
            exact ⟨_, h2 ▸ seriesDiv_error hd2⟩
          | ok av =>
            simp only [hd2] at h
            exact Except.noConfusion h

/-- C8 counterexample — on a table whose required 'cost' and 'date'
patterns match no column, `validate_columns` raises the ValueError, yet
the run does not abort: the first three stages complete, the Top
Products aggregation still runs and returns a one-row report, and the
whole pipeline finishes. -/
theorem c8_fatal_validation_counterexample :
    validateColumns exT8 reqCols = .error (.valueError ["cost", "date"]) ∧
    runSteps [POp.basicInfo, POp.clean, POp.derive] (loadState exT8) = .ok c8state ∧
    (∃ rpt, c8top = some rpt ∧ rpt.rows.length = 1) ∧
    (runPipeline exT8).isOk = true :=
  ⟨rfl, rfl, ⟨_, rfl, rfl⟩, rfl⟩

/-- C8 amended — a missing required column is not fatal:
`add_derived_columns` never propagates the ValueError raised by
`validate_columns` (its only uncaught errors are the TypeErrors of the
arithmetic), and whenever it completes after a failed validation it has
appended the 'Column Validation Error' diagnostic to the log instead. -/
theorem c8_nonfatal_validation :
    ∀ s : Analyzer,
      (∀ m, addDerivedColumns s ≠ .error (PyErr.valueError m)) ∧
      (∀ s', addDerivedColumns s = .ok s' → validateColumns s.df reqCols ≠ .ok () →
        "Column Validation Error" ∈ s'.log.step) := by
  intro s
  constructor
  · intro m hcontra
    simp only [addDerivedColumns] at hcontra
    cases hdt : deriveTables s.df with
    | error e =>
      rw [hdt] at hcontra
      injection hcontra with h2
      obtain ⟨msg, hmsg⟩ := deriveTables_error_type hdt
      rw [hmsg] at h2
      exact PyErr.noConfusion h2
    | ok p =>
      obtain ⟨t4, li4⟩ := p
      rw [hdt] at hcontra
      exact Except.noConfusion hcontra
  · intro s' hok hval
    simp only [addDerivedColumns] at hok
    cases hdt : deriveTables s.df with
    | error e =>
      rw [hdt] at hok
      exact Except.noConfusion hok
    | ok p =>
      obtain ⟨t4, li4⟩ := p
      rw [hdt] at hok
      injection hok with h2
      subst h2
      cases hv : validateColumns s.df reqCols with
      | ok u =>
        cases u
        exact absurd hv hval
      | error e =>
        simp only [hv]
        simp [addStep, addDetail]

/-- Witness for the amended C8 at the concrete failing table. -/
theorem c8_nonfatal_validation_witness :
    addDerivedColumns (loadState exT8) ≠ .error (PyErr.valueError ["cost", "date"]) ∧
    "Column Validation Error" ∈ c8state.log.step :=
  ⟨(c8_nonfatal_validation (loadState exT8)).1 ["cost", "date"],
    (c8_nonfatal_validation (cleanData (displayBasicInfo (loadState exT8)))).2 c8state rfl
      (fun hcontra => Except.noConfusion hcontra)⟩

/-- C6 — with Product and Sales resolved but Quantity unresolved, the
count fallback inserts the key 'Count' into the agg dict, but 'Count' is
not a column of the table: `groupby(...).agg` raises a KeyError instead
of producing the claimed count-bearing result. -/
theorem c6_count_fallback_keyerror :
    resolveCol productKeywords exT6.header = some "Product" ∧
    resolveCol salesKeywords exT6.header = some "Sales" ∧
    resolveCol quantityKeywords exT6.header = none ∧
    analyzeTopProducts 10 (loadState exT6) = .error (.keyError "Count") :=
  ⟨rfl, rfl, rfl, rfl⟩

/-- C7 — aggregators that depend on derived fields do not check all of
them: the trend aggregator's presence check passes on a table with
Month_Name and Profit but no Profit_Margin_Percentage and the agg then
raises a KeyError; the region×month aggregator checks only region and
sales and raises a KeyError on the missing Month_Name. -/
theorem c7_missing_derived_keyerror :
    (addDerivedColumns (loadState exT7a) = .ok c7state ∧
      c7state.df.header.contains "Month_Name" = true ∧
      c7state.df.header.contains "Profit" = true ∧
      c7state.df.header.contains "Profit_Margin_Percentage" = false ∧
      analyzeProfitabilityTrend c7state = .error (.keyError "Profit_Margin_Percentage")) ∧
    (resolveCol regionKeywords exT7b.header = some "Region" ∧
      resolveCol salesKeywords exT7b.header = some "Sales" ∧
      analyzeByRegionAndMonth (loadState exT7b) = .error (.keyError "Month_Name")) :=
  ⟨⟨rfl, rfl, rfl, rfl, rfl⟩, rfl, rfl, rfl⟩
